import Mathlib

/-!
# GenomicsDB: `variant_storage_manager.cc`

A shallow embedding of the buffer layout, the one-cell write path, the schema
translation and the descriptor registry of `VariantStorageManager`, followed by
the properties established about them.

Conventions of the embedding

* `std::vector<T>` is a `List T`; a byte is a `Nat`.
* A pointer stored in a pointer table is a `Ptr`: either the first byte of one of
  the owning object's own buffers, or an address in caller memory.
* A C++ call can end in four ways: it returns, it throws, an `assert` fails
  (unless the build defines `NDEBUG`), or it leaves defined behaviour (an access
  outside a vector or buffer). The last three are the constructors of `Failure`.
* The storage engine (TileDB) is a collaborator: its answers are the fields of a
  `TileDB` record, and every call made to it is recorded as an `EngineCall`.
-/

namespace GenomicsDB

/-! ## Constants of the engine's C API and of the platform

The constants come from the engine's header. The numbers given to the three array modes
stand for the header's: the development relies only on their being pairwise distinct,
and on `TILEDB_OK` differing from the error status. -/

def TILEDB_OK : Int := 0
def TILEDB_ERR : Int := -1
def TILEDB_ARRAY_READ : Int := 0
def TILEDB_ARRAY_WRITE : Int := 1
def TILEDB_ARRAY_WRITE_UNSORTED : Int := 2
def TILEDB_COL_MAJOR : Int := 1
def TILEDB_VAR_NUM : Int := 2147483647
def TILEDB_COORDS : String := "__coords"

/-- The width of `size_t` in bytes, `sizeof(size_t)` on an LP64 platform. -/
def sizeof_size_t : Nat := 8

/-- The conversion `static_cast<size_t>(x)` of a signed integer. -/
def to_size_t (x : Int) : Nat := (x % 2 ^ 64).toNat

/-- The conversion of an integer value to a 32-bit `int` (two's complement). -/
def to_int (x : Int) : Int := (x + 2 ^ 31) % 2 ^ 32 - 2 ^ 31

/-- Unsigned subtraction of two `size_t` values, as in `m_buffers.size()-1u`: the
difference wraps around below zero. -/
def size_t_sub (a b : Nat) : Nat := if b ≤ a then a - b else a + 2 ^ 64 - b

/-- A `std::type_index`: the two types the source names, and any other. -/
inductive TypeIndex where
  | void
  | int64_t
  | other (id : Nat)
deriving DecidableEq, Repr

/-! ## Ways a call can fail -/

/-- The text a `VERIFY_OR_THROW(X)` site puts in its exception (the stringised
condition `#X`): one constructor per distinct condition in the file. -/
inductive ThrowSite where
  /-- `status == TILEDB_OK && "Error while initializing TileDB iterator"`. -/
  | iterator_init
  /-- `mode_iter != ...end() && "Unknown mode of opening an array"`. -/
  | unknown_mode
  /-- `static_cast<size_t>(ad) < m_open_arrays_info_vector.size() && ...length()`. -/
  | invalid_descriptor
deriving DecidableEq, Repr

inductive Exception where
  /-- `VariantStorageManagerException(#X)` thrown by `VERIFY_OR_THROW`. -/
  | VariantStorageManagerException (what : ThrowSite)
  /-- The fatal error of the type-mapping functions on an unmapped type. -/
  | unmapped_type
deriving DecidableEq, Repr

inductive Failure where
  | thrown (e : Exception)
  /-- A failed `assert`: the process aborts. -/
  | assertion_failed
  /-- An access outside a vector or buffer. -/
  | undefined_behaviour
deriving DecidableEq, Repr

/-- The macro `VERIFY_OR_THROW(X)` at the site `what`. -/
def VERIFY_OR_THROW (what : ThrowSite) (x : Bool) : Except Failure Unit :=
  if x then .ok () else .error (.thrown (.VariantStorageManagerException what))

/-- The macro `assert(X)`: the condition is checked unless the build defines `NDEBUG`,
in which case the statement is empty. -/
def assert (NDEBUG : Bool) (x : Bool) : Except Failure Unit :=
  if NDEBUG || x then .ok () else .error .assertion_failed

/-- Reading `v[i]`. -/
def vec_get {α : Type} (v : List α) (i : Nat) : Except Failure α :=
  match v[i]? with
  | some a => .ok a
  | none => .error .undefined_behaviour

/-- Writing `v[i] = a`. -/
def vec_set {α : Type} (v : List α) (i : Nat) (a : α) : Except Failure (List α) :=
  if i < v.length then .ok (v.set i a) else .error .undefined_behaviour

/-- The value an accessor of the schema returns; reading outside the attribute vector
is not defined. -/
def accessed {α : Type} (v : Option α) : Except Failure α :=
  match v with
  | some a => .ok a
  | none => .error .undefined_behaviour

/-- The result of a type-mapping function: an unmapped type is a fatal error. -/
def mapped {α : Type} (v : Option α) : Except Failure α :=
  match v with
  | some a => .ok a
  | none => .error (.thrown .unmapped_type)

/-! ## The array schema -/

/-- Modelled from the spec: one attribute of a schema: its name, type, value count (or
the variable-length marker) and compression id. -/
structure AttributeInfo where
  m_name : String
  m_type : TypeIndex
  /-- The number of values per cell, or `TILEDB_VAR_NUM`. -/
  m_length : Int
  m_compression_type : Int
deriving DecidableEq, Repr

/-- Modelled from the spec: an attribute is variable-length when its value count is the
reserved variable-length marker. -/
def AttributeInfo.is_variable_length (a : AttributeInfo) : Bool := a.m_length == TILEDB_VAR_NUM

/-- Modelled from the spec: the class `VariantArraySchema` (its header is not part
of the translated file): ordered attributes (name, type, fixed value count or the
variable-length marker, compression id), ordered dimensions with their inclusive
domains, the type and compression of the coordinates, and the cell order. -/
structure VariantArraySchema where
  m_array_name : String
  m_cell_order : Int
  m_attributes_vector : List AttributeInfo
  m_dim_names : List String
  m_dim_domains : List (Int × Int)
  m_dim_type : TypeIndex
  m_dim_compression_type : Int
  m_dim_size_in_bytes : Nat
deriving DecidableEq, Repr

namespace VariantArraySchema

/-- Modelled from the spec: the default-constructed schema, with no attribute and no
dimension. -/
def empty : VariantArraySchema :=
  { m_array_name := "", m_cell_order := 0, m_attributes_vector := [], m_dim_names := [],
    m_dim_domains := [], m_dim_type := .void, m_dim_compression_type := 0,
    m_dim_size_in_bytes := 0 }

/-! Modelled from the spec: the accessors of `VariantArraySchema` used by the translated
file. Those taking an attribute index read the attribute vector at that index. -/

def array_name (s : VariantArraySchema) : String := s.m_array_name
def attribute_num (s : VariantArraySchema) : Nat := s.m_attributes_vector.length
def dim_names (s : VariantArraySchema) : List String := s.m_dim_names
def dim_domains (s : VariantArraySchema) : List (Int × Int) := s.m_dim_domains
def dim_type (s : VariantArraySchema) : TypeIndex := s.m_dim_type
def dim_compression_type (s : VariantArraySchema) : Int := s.m_dim_compression_type
def dim_size_in_bytes (s : VariantArraySchema) : Nat := s.m_dim_size_in_bytes

/-- Modelled from the spec: the attribute record an accessor called with `idx` reads,
`m_attributes_vector[idx]`; `none` when `idx` is outside the vector. -/
def attribute_at (s : VariantArraySchema) (idx : Int) : Option AttributeInfo :=
  if 0 ≤ idx then s.m_attributes_vector[idx.toNat]? else none

def attribute_name (s : VariantArraySchema) (idx : Int) : Option String :=
  (s.attribute_at idx).map (·.m_name)
def val_num (s : VariantArraySchema) (idx : Int) : Option Int :=
  (s.attribute_at idx).map (·.m_length)
def type (s : VariantArraySchema) (idx : Int) : Option TypeIndex :=
  (s.attribute_at idx).map (·.m_type)
def compression (s : VariantArraySchema) (idx : Int) : Option Int :=
  (s.attribute_at idx).map (·.m_compression_type)

def is_variable_length_field (s : VariantArraySchema) (idx : Int) : Option Bool :=
  (s.attribute_at idx).map AttributeInfo.is_variable_length

end VariantArraySchema

/-- The engine's schema structure `TileDB_ArraySchema`, as filled by
`tiledb_array_set_schema` and returned by `tiledb_array_load_schema`. -/
structure TileDB_ArraySchema where
  array_name_ : String
  attributes_ : List String
  attribute_num_ : Nat
  dimensions_ : List String
  dim_num_ : Nat
  dense_ : Int
  domain_ : List Int
  tile_extents_ : Option (List Int)
  types_ : List Int
  cell_val_num_ : List Int
  cell_order_ : Int
  tile_order_ : Int
  capacity_ : Int
  compression_ : List Int
deriving DecidableEq, Repr

/-- The type-mapping functions of `VariantFieldTypeUtil` (not part of the translated
file), taken as parameters; `none` is the fatal error on an unmapped type. -/
structure VariantFieldTypeUtil where
  get_tiledb_type_for_variant_field_type : TypeIndex → Option Int
  get_variant_field_type_for_tiledb_type : Int → Option TypeIndex
  size : TypeIndex → Nat

/-- Modelled from the spec: the constructor of `VariantArraySchema` from the vectors
`get_array_schema` passes to it: attribute `i` takes its name, value count, type and
compression from position `i`; the last entries of `types` and `compression`
describe the coordinates; the dimension names and domains are stored as given. -/
def VariantArraySchema.create (U : VariantFieldTypeUtil) (array_name : String)
    (attribute_names dim_names : List String) (dim_domains : List (Int × Int))
    (types : List TypeIndex) (val_num compression : List Int) (cell_order : Int) :
    VariantArraySchema :=
  { m_array_name := array_name
    m_cell_order := cell_order
    m_attributes_vector := (List.range attribute_names.length).map fun i =>
      { m_name := attribute_names.getD i "", m_type := types.getD i .void,
        m_length := val_num.getD i 0, m_compression_type := compression.getD i 0 }
    m_dim_names := dim_names
    m_dim_domains := dim_domains
    m_dim_type := types.getLastD .void
    m_dim_compression_type := compression.getLastD 0
    m_dim_size_in_bytes := dim_names.length * U.size (types.getLastD .void) }

/-! ## Pointers, buffers and the engine -/

/-- A value of a pointer table. -/
inductive Ptr where
  | null
  /-- The address of the first byte of the owner's buffer `i`, `&(m_buffers[i][0])`. -/
  | buffer (i : Nat)
  /-- An address in caller memory. -/
  | caller (addr : Nat)
deriving DecidableEq, Repr

/-- The vector `std::vector<uint8_t>(buffer_size)`: `buffer_size` zero bytes. -/
def new_buffer (buffer_size : Nat) : List Nat := List.replicate buffer_size 0

/-- A call made to the storage engine. -/
inductive EngineCall where
  | array_init (path : String) (mode : Int)
  | array_finalize (array : Option Nat)
  | array_load_schema (path : String)
  | array_free_schema
  | array_create (schema : TileDB_ArraySchema)
  | array_iterator_init (path : String) (range : List Int) (attribute_names : List String)
      (buffers : List Ptr) (buffer_sizes : List Nat)
  | array_write (array : Option Nat) (buffers : List Ptr) (buffer_sizes : List Nat)
deriving DecidableEq, Repr

/-- The answers of the storage engine. An engine array handle (`TileDB_Array*`) is an
`Option Nat`, `none` being the null pointer. -/
structure TileDB where
  /-- The status and the handle stored by `tiledb_array_init` for a path and a mode. -/
  tiledb_array_init : String → Int → Int × Option Nat
  /-- The status and schema of `tiledb_array_load_schema` for a path. -/
  tiledb_array_load_schema : String → Int × TileDB_ArraySchema
  tiledb_array_create : TileDB_ArraySchema → Int
  tiledb_array_iterator_init : String → List Int → List String → List Ptr → List Nat → Int
  tiledb_array_write : Option Nat → List Ptr → List Nat → Int

/-- The statement `for(auto i=first; i<first+count; ++i) body(i)` over a state. -/
def for_loop {σ : Type} (body : Nat → σ → Except Failure σ) :
    (count : Nat) → (first : Nat) → σ → Except Failure σ
  | 0, _, s => .ok s
  | count + 1, i, s => (body i s).bind (for_loop body count (i + 1))

/-- A store of the bytes `data` through the pointer `p` into the buffers `bufs`:
defined when `p` is the first byte of a buffer that can hold `data`. -/
def store_bytes (bufs : List (List Nat)) (p : Ptr) (data : List Nat) :
    Except Failure (List (List Nat)) :=
  match p with
  | .buffer k =>
    match bufs[k]? with
    | some b =>
      if data.length ≤ b.length then .ok (bufs.set k (data ++ b.drop data.length))
      else .error .undefined_behaviour
    | none => .error .undefined_behaviour
  | _ => .error .undefined_behaviour

/-- The object representation of the `size_t` value `0ull`. -/
def size_t_zero_bytes : List Nat := List.replicate sizeof_size_t 0

/-! ## `VariantArrayInfo`: the handle of an opened array -/

structure VariantArrayInfo where
  m_idx : Int
  m_mode : Int
  m_name : String
  m_schema : VariantArraySchema
  m_tiledb_array : Option Nat
  m_buffers : List (List Nat)
  m_buffer_pointers : List Ptr
  m_buffer_sizes : List Nat
deriving DecidableEq, Repr

/-- The input of `write_cell`: the address `ptr`, the bytes of the flat record found
there, and what the cell builder `m_cell` reports once `m_cell.set_cell(ptr)` has run
(the class `BufferVariantCell` is not part of the translated file). -/
structure InputCell where
  ptr : Nat
  bytes : List Nat
  /-- The address `m_cell.get_field_ptr_for_query_idx<void>(i)`. -/
  get_field_ptr_for_query_idx : Nat → Nat
  /-- The length `m_cell.get_field_size_in_bytes(i)`. -/
  get_field_size_in_bytes : Nat → Nat

/-- Reading `n` bytes at the address of the input record, as `memcpy` does. -/
def InputCell.read (cell : InputCell) (n : Nat) : Except Failure (List Nat) :=
  if n ≤ cell.bytes.length then .ok (cell.bytes.take n) else .error .undefined_behaviour

namespace VariantArrayInfo

/-- The body of the allocation loop of the constructor (lines 82-85). -/
def allocate_attribute (schema : VariantArraySchema) (buffer_size : Nat)
    (m_buffers : List (List Nat)) (i : Nat) : List (List Nat) :=
  let m_buffers :=
    if schema.is_variable_length_field i = some true then m_buffers ++ [new_buffer buffer_size]
    else m_buffers
  m_buffers ++ [new_buffer buffer_size]

/-- The constructor `VariantArrayInfo::VariantArrayInfo` (lines 72-98). -/
def create (idx mode : Int) (name : String) (schema : VariantArraySchema)
    (tiledb_array : Option Nat) (buffer_size : Nat) : VariantArrayInfo :=
  if mode == TILEDB_ARRAY_WRITE || mode == TILEDB_ARRAY_WRITE_UNSORTED then
    let m_buffers :=
      (List.range schema.attribute_num).foldl (allocate_attribute schema buffer_size) []
        ++ [new_buffer buffer_size]
    { m_idx := idx, m_mode := mode, m_name := name, m_schema := schema,
      m_tiledb_array := tiledb_array, m_buffers := m_buffers,
      m_buffer_pointers := (List.range m_buffers.length).map Ptr.buffer,
      m_buffer_sizes := m_buffers.map List.length }
  else
    { m_idx := idx, m_mode := mode, m_name := name, m_schema := schema,
      m_tiledb_array := tiledb_array, m_buffers := [], m_buffer_pointers := [],
      m_buffer_sizes := [] }

/-! Modelled from the spec: the inline members `get_array_name`, `get_schema` and
`set_schema` of `VariantArrayInfo` (declared in the header): they read and replace the
members they name. -/

def get_array_name (h : VariantArrayInfo) : String := h.m_name
def get_schema (h : VariantArrayInfo) : VariantArraySchema := h.m_schema
def set_schema (h : VariantArrayInfo) (schema : VariantArraySchema) : VariantArrayInfo :=
  { h with m_schema := schema }

/-- Modelled from the spec: `VariantArrayInfo::close_array` (declared in the header):
the engine handle is released and the slot is marked closed by emptying its name. -/
def close_array (h : VariantArrayInfo) : VariantArrayInfo × List EngineCall :=
  ({ h with m_tiledb_array := none, m_name := "" }, [.array_finalize h.m_tiledb_array])

/-- The body of the staging loop of `write_cell` (lines 125-135), on the slot cursor
`buffer_idx` and the handle. -/
def write_cell_attribute (NDEBUG : Bool) (cell : InputCell) (i : Nat)
    (st : Nat × VariantArrayInfo) : Except Failure (Nat × VariantArrayInfo) := do
  let (buffer_idx, h) := st
  assert NDEBUG (buffer_idx < h.m_buffer_pointers.length)
  let (buffer_idx, h) ←
    match h.m_schema.is_variable_length_field i with
    | none => .error .undefined_behaviour
    | some true => do
      let p ← vec_get h.m_buffer_pointers buffer_idx
      let m_buffers ← store_bytes h.m_buffers p size_t_zero_bytes
      let m_buffer_sizes ← vec_set h.m_buffer_sizes buffer_idx sizeof_size_t
      pure (buffer_idx + 1, { h with m_buffers := m_buffers, m_buffer_sizes := m_buffer_sizes })
    | some false => pure (buffer_idx, h)
  let m_buffer_pointers ←
    vec_set h.m_buffer_pointers buffer_idx (.caller (cell.get_field_ptr_for_query_idx i))
  let m_buffer_sizes ← vec_set h.m_buffer_sizes buffer_idx (cell.get_field_size_in_bytes i)
  pure (buffer_idx + 1,
    { h with m_buffer_pointers := m_buffer_pointers, m_buffer_sizes := m_buffer_sizes })

/-- The staging of one record by `write_cell` (lines 121-141): everything before the
engine call. Returns the final slot cursor and the handle. -/
def stage_cell (NDEBUG : Bool) (h : VariantArrayInfo) (cell : InputCell) :
    Except Failure (Nat × VariantArrayInfo) := do
  let (buffer_idx, h) ←
    for_loop (write_cell_attribute NDEBUG cell) h.m_schema.attribute_num 0 (0, h)
  let coords_buffer_idx := size_t_sub h.m_buffers.length 1
  assert NDEBUG (buffer_idx == coords_buffer_idx)
  let dst ← vec_get h.m_buffer_pointers coords_buffer_idx
  let src ← cell.read h.m_schema.dim_size_in_bytes
  let m_buffers ← store_bytes h.m_buffers dst src
  let m_buffer_sizes ← vec_set h.m_buffer_sizes coords_buffer_idx h.m_schema.dim_size_in_bytes
  pure (buffer_idx, { h with m_buffers := m_buffers, m_buffer_sizes := m_buffer_sizes })

/-- The function `VariantArrayInfo::write_cell` (lines 119-144): the record is staged
and `tiledb_array_write` is called; the status it returns is not looked at. -/
def write_cell (NDEBUG : Bool) (E : TileDB) (h : VariantArrayInfo) (cell : InputCell) :
    Except Failure (VariantArrayInfo × List EngineCall) := do
  let (_, h) ← stage_cell NDEBUG h cell
  let _status := E.tiledb_array_write h.m_tiledb_array h.m_buffer_pointers h.m_buffer_sizes
  pure (h, [.array_write h.m_tiledb_array h.m_buffer_pointers h.m_buffer_sizes])

/-- The move constructor `VariantArrayInfo(VariantArrayInfo&&)` (lines 101-117): the
members are taken over and every entry of the pointer table is set to the address of
the buffer of the same index. -/
def move (other : VariantArrayInfo) : VariantArrayInfo :=
  { other with
    m_buffer_pointers := (List.range other.m_buffer_pointers.length).map Ptr.buffer }

/-- What happens to a handle between its construction and a call of `write_cell`: an
earlier `write_cell`, or a relocation through the move constructor. -/
inductive Event where
  | write (cell : InputCell)
  | moved

/-- The handle after a sequence of events. -/
def replay (NDEBUG : Bool) (E : TileDB) (h : VariantArrayInfo) :
    List Event → Except Failure VariantArrayInfo
  | [] => .ok h
  | .write cell :: events =>
    (write_cell NDEBUG E h cell).bind fun r => replay NDEBUG E r.1 events
  | .moved :: events => replay NDEBUG E h.move events

end VariantArrayInfo

/-! ## `VariantArrayCellIterator` -/

structure VariantArrayCellIterator where
  m_num_queried_attributes : Nat
  m_variant_array_schema : VariantArraySchema
  m_buffers : List (List Nat)
  m_buffer_pointers : List Ptr
  m_buffer_sizes : List Nat
deriving DecidableEq, Repr

namespace VariantArrayCellIterator

/-- The first loop of the constructor (lines 19-26) over the attribute ids still to
visit, on the names and buffers collected so far. An id outside the schema's
attribute vector makes the accessors read outside it. -/
def collect (schema : VariantArraySchema) (buffer_size : Nat) :
    List Int → List String × List (List Nat) → Except Failure (List String × List (List Nat))
  | [], acc => .ok acc
  | id :: ids, (attribute_names, m_buffers) =>
    match schema.attribute_name id, schema.is_variable_length_field id with
    | some name, some is_var =>
      let m_buffers := if is_var then m_buffers ++ [new_buffer buffer_size] else m_buffers
      collect schema buffer_size ids (attribute_names ++ [name], m_buffers ++ [new_buffer buffer_size])
    | _, _ => .error .undefined_behaviour

/-- The constructor `VariantArrayCellIterator::VariantArrayCellIterator` (lines 12-49),
with the engine calls it makes. -/
def create (E : TileDB) (schema : VariantArraySchema) (array_path : String)
    (range : List Int) (attribute_ids : List Int) (buffer_size : Nat) :
    Except Failure VariantArrayCellIterator × List EngineCall :=
  match collect schema buffer_size attribute_ids ([], []) with
  | .error e => (.error e, [])
  | .ok (attribute_names, m_buffers) =>
    let attribute_names := attribute_names ++ [TILEDB_COORDS]
    let m_buffers := m_buffers ++ [new_buffer buffer_size]
    let m_buffer_pointers := (List.range m_buffers.length).map Ptr.buffer
    let m_buffer_sizes := m_buffers.map List.length
    let status :=
      E.tiledb_array_iterator_init array_path range attribute_names m_buffer_pointers m_buffer_sizes
    let calls :=
      [EngineCall.array_iterator_init array_path range attribute_names m_buffer_pointers
        m_buffer_sizes]
    match VERIFY_OR_THROW .iterator_init (status == TILEDB_OK) with
    | .error e => (.error e, calls)
    | .ok _ =>
      (.ok { m_num_queried_attributes := attribute_ids.length, m_variant_array_schema := schema,
             m_buffers := m_buffers, m_buffer_pointers := m_buffer_pointers,
             m_buffer_sizes := m_buffer_sizes }, calls)

end VariantArrayCellIterator

/-! ## `VariantStorageManager` -/

structure VariantStorageManager where
  m_workspace : String
  m_segment_size : Nat
  m_open_arrays_info_vector : List VariantArrayInfo
deriving DecidableEq, Repr

/-- What the translated file leaves to its surroundings: the engine, the type-mapping
functions, the default value of the constructor argument `buffer_size` of
`VariantArrayInfo` (declared in the header), and whether the build defines `NDEBUG`. -/
structure Context where
  engine : TileDB
  util : VariantFieldTypeUtil
  default_buffer_size : Nat
  NDEBUG : Bool

/-- The result of a member function of the manager: how the call ended, the manager
afterwards, and the engine calls made. -/
structure Run (α : Type) where
  result : Except Failure α
  manager : VariantStorageManager
  calls : List EngineCall

namespace VariantStorageManager

/-- The table `m_mode_string_to_int` (lines 6-9). -/
def m_mode_string_to_int (mode : String) : Option Int :=
  if mode = "r" then some TILEDB_ARRAY_READ
  else if mode = "w" then some TILEDB_ARRAY_WRITE
  else none

/-- The path `m_workspace+'/'+array_name`. -/
def array_path (sm : VariantStorageManager) (array_name : String) : String :=
  sm.m_workspace ++ "/" ++ array_name

/-- The condition the descriptor-taking functions check (lines 177, 252, 310, 321):
`static_cast<size_t>(ad) < m_open_arrays_info_vector.size() &&
 m_open_arrays_info_vector[ad].get_array_name().length()`. -/
def descriptor_ok (sm : VariantStorageManager) (ad : Int) : Bool :=
  decide (to_size_t ad < sm.m_open_arrays_info_vector.length) &&
    (sm.m_open_arrays_info_vector[to_size_t ad]?).any fun h => h.get_array_name.length != 0

/-- The decoding of attribute `i` of an engine schema (lines 275-278), on the vectors
`attribute_names`, `val_num`, `attribute_types` and `compression`. -/
def decode_attribute (U : VariantFieldTypeUtil) (t : TileDB_ArraySchema) (i : Nat)
    (st : List String × List Int × List TypeIndex × List Int) :
    Except Failure (List String × List Int × List TypeIndex × List Int) := do
  let (attribute_names, val_num, attribute_types, compression) := st
  let name ← vec_get t.attributes_ i
  let attribute_names ← vec_set attribute_names i name
  let cell_val_num ← vec_get t.cell_val_num_ i
  let val_num ← vec_set val_num i cell_val_num
  let tiledb_type ← vec_get t.types_ i
  let type ← mapped (U.get_variant_field_type_for_tiledb_type tiledb_type)
  let attribute_types ← vec_set attribute_types i type
  let c ← vec_get t.compression_ i
  let compression ← vec_set compression i c
  pure (attribute_names, val_num, attribute_types, compression)

/-- The decoding of dimension `i` (lines 289-291) on the names and domains so far. -/
def decode_dimension (t : TileDB_ArraySchema) (i : Nat)
    (st : List String × List (Int × Int)) : Except Failure (List String × List (Int × Int)) := do
  let (dim_names, dim_domains) := st
  let name ← vec_get t.dimensions_ i
  let dim_names ← vec_set dim_names i name
  let low ← vec_get t.domain_ (2 * i)
  let high ← vec_get t.domain_ (2 * i + 1)
  let dim_domains ← vec_set dim_domains i (low, high)
  pure (dim_names, dim_domains)

/-- The translation of a loaded engine schema into a `VariantArraySchema`
(lines 268-301 of `get_array_schema`). -/
def decode_schema (U : VariantFieldTypeUtil) (array_name : String) (t : TileDB_ArraySchema) :
    Except Failure VariantArraySchema := do
  let n := t.attribute_num_
  let (attribute_names, val_num, attribute_types, compression) ←
    for_loop (decode_attribute U t) n 0
      (List.replicate n "", List.replicate n (0 : Int), List.replicate (n + 1) TypeIndex.void,
        List.replicate (n + 1) (0 : Int))
  let coords_idx := t.attribute_num_
  let attribute_types ← vec_set attribute_types coords_idx TypeIndex.int64_t
  let c ← vec_get t.compression_ coords_idx
  let compression ← vec_set compression coords_idx c
  let (dim_names, dim_domains) ←
    for_loop (decode_dimension t) t.dim_num_ 0
      (List.replicate t.dim_num_ "", List.replicate (2 * t.dim_num_) ((0 : Int), (0 : Int)))
  pure (VariantArraySchema.create U array_name attribute_names dim_names dim_domains
    attribute_types val_num compression TILEDB_COL_MAJOR)

/-- The function `get_array_schema(const std::string&, VariantArraySchema*)`
(lines 260-305): the returned status and the value of `*variant_array_schema`
afterwards (`out` before the call). -/
def get_array_schema_by_name (C : Context) (sm : VariantStorageManager) (array_name : String)
    (out : VariantArraySchema) : Except Failure (Int × VariantArraySchema) × List EngineCall :=
  let path := sm.array_path array_name
  let (status, tiledb_array_schema) := C.engine.tiledb_array_load_schema path
  if status != TILEDB_OK then (.ok (-1, out), [.array_load_schema path])
  else
    match decode_schema C.util array_name tiledb_array_schema with
    | .error e => (.error e, [.array_load_schema path])
    | .ok schema => (.ok (TILEDB_OK, schema), [.array_load_schema path, .array_free_schema])

/-- The engine function `tiledb_array_set_schema`, which fills the schema structure
from its arguments (in the order of the call at lines 210-245; the two byte lengths
are implied by the lists). -/
def tiledb_array_set_schema (array_name : String) (attributes : List String)
    (attribute_num : Nat) (dimensions : List String) (dim_num : Nat) (dense : Int)
    (domain : List Int) (tile_extents : Option (List Int)) (types cell_val_num : List Int)
    (cell_order tile_order capacity : Int) (compression : List Int) : TileDB_ArraySchema :=
  { array_name_ := array_name, attributes_ := attributes, attribute_num_ := attribute_num,
    dimensions_ := dimensions, dim_num_ := dim_num, dense_ := dense, domain_ := domain,
    tile_extents_ := tile_extents, types_ := types, cell_val_num_ := cell_val_num,
    cell_order_ := cell_order, tile_order_ := tile_order, capacity_ := capacity,
    compression_ := compression }

/-- The encoding of attribute `i` by `define_array` (lines 191-194), on the vectors
`attribute_names`, `cell_val_num`, `types` and `compression`. -/
def encode_attribute (U : VariantFieldTypeUtil) (schema : VariantArraySchema) (i : Nat)
    (st : List String × List Int × List Int × List Int) :
    Except Failure (List String × List Int × List Int × List Int) := do
  let (attribute_names, cell_val_num, types, compression) := st
  let name ← accessed (schema.attribute_name i)
  let attribute_names ← vec_set attribute_names i name
  let v ← accessed (schema.val_num i)
  let cell_val_num ← vec_set cell_val_num i v
  let type ← accessed (schema.type i)
  let tiledb_type ← mapped (U.get_tiledb_type_for_variant_field_type type)
  let types ← vec_set types i tiledb_type
  let c ← accessed (schema.compression i)
  let compression ← vec_set compression i c
  pure (attribute_names, cell_val_num, types, compression)

/-- The encoding of dimension `i` by `define_array` (lines 204-206). -/
def encode_dimension (schema : VariantArraySchema) (i : Nat)
    (st : List String × List Int) : Except Failure (List String × List Int) := do
  let (dim_names, dim_domains) := st
  let name ← vec_get schema.dim_names i
  let dim_names ← vec_set dim_names i name
  let domain ← vec_get schema.dim_domains i
  let dim_domains ← vec_set dim_domains (2 * i) domain.1
  let dim_domains ← vec_set dim_domains (2 * i + 1) domain.2
  pure (dim_names, dim_domains)

/-- The engine schema `define_array` builds (lines 185-245). -/
def define_array_request (U : VariantFieldTypeUtil) (sm : VariantStorageManager)
    (schema : VariantArraySchema) : Except Failure TileDB_ArraySchema := do
  let n := schema.attribute_num
  let (attribute_names, cell_val_num, types, compression) ←
    for_loop (encode_attribute U schema) n 0
      (List.replicate n "", List.replicate n (0 : Int), List.replicate (n + 1) (0 : Int),
        List.replicate (n + 1) (0 : Int))
  let coords_type ← mapped (U.get_tiledb_type_for_variant_field_type schema.dim_type)
  let types ← vec_set types n coords_type
  let compression ← vec_set compression n schema.dim_compression_type
  let d := schema.dim_names.length
  let (dim_names, dim_domains) ←
    for_loop (encode_dimension schema) d 0 (List.replicate d "", List.replicate (2 * d) (0 : Int))
  pure (tiledb_array_set_schema (sm.array_path schema.array_name) attribute_names
    attribute_names.length dim_names dim_names.length 0 dim_domains none types cell_val_num
    TILEDB_COL_MAJOR 0 1000 compression)

/-- The function `VariantStorageManager::define_array` (lines 182-248). -/
def define_array (C : Context) (sm : VariantStorageManager) (schema : VariantArraySchema) :
    Except Failure Int × List EngineCall :=
  match define_array_request C.util sm schema with
  | .error e => (.error e, [])
  | .ok array_schema =>
    (.ok (C.engine.tiledb_array_create array_schema), [.array_create array_schema])

/-- The schema `get_array_schema` decodes from the engine schema `define_array` builds. -/
def schema_round_trip (U : VariantFieldTypeUtil) (sm : VariantStorageManager)
    (schema : VariantArraySchema) : Except Failure VariantArraySchema :=
  (define_array_request U sm schema).bind (decode_schema U schema.array_name)

/-- The function `VariantStorageManager::open_array` (lines 147-173). The registry is a
list of handles: a relocation of the earlier handles by `emplace_back` (through
`VariantArrayInfo.move`) is not represented. -/
def open_array (C : Context) (sm : VariantStorageManager) (array_name mode : String) :
    Run Int :=
  match m_mode_string_to_int mode with
  | none =>
    { result := .error (.thrown (.VariantStorageManagerException .unknown_mode)),
      manager := sm, calls := [] }
  | some mode_int =>
    let path := sm.array_path array_name
    let (status, tiledb_array) := C.engine.tiledb_array_init path mode_int
    if status == TILEDB_OK then
      let idx := sm.m_open_arrays_info_vector.length
      match get_array_schema_by_name C sm array_name VariantArraySchema.empty with
      | (.error e, calls) =>
        { result := .error e, manager := sm, calls := .array_init path mode_int :: calls }
      | (.ok (_, tmp_schema), calls) =>
        { result := .ok (to_int idx),
          manager :=
            { sm with
              m_open_arrays_info_vector := sm.m_open_arrays_info_vector ++
                [VariantArrayInfo.create (to_int idx) mode_int array_name tmp_schema tiledb_array
                  C.default_buffer_size] },
          calls := .array_init path mode_int :: calls }
    else
      { result := .ok (-1), manager := sm,
        calls := [.array_init path mode_int, .array_finalize tiledb_array] }

/-- The function `VariantStorageManager::close_array` (lines 175-180). -/
def close_array (sm : VariantStorageManager) (ad : Int) : Run Unit :=
  match VERIFY_OR_THROW .invalid_descriptor (sm.descriptor_ok ad) with
  | .error e => { result := .error e, manager := sm, calls := [] }
  | .ok _ =>
    match vec_get sm.m_open_arrays_info_vector (to_size_t ad) with
    | .error e => { result := .error e, manager := sm, calls := [] }
    | .ok h =>
      { result := .ok (),
        manager :=
          { sm with
            m_open_arrays_info_vector :=
              sm.m_open_arrays_info_vector.set (to_size_t ad) h.close_array.1 },
        calls := h.close_array.2 }

/-- The function `get_array_schema(const int, VariantArraySchema*)` (lines 250-258). -/
def get_array_schema (C : Context) (sm : VariantStorageManager) (ad : Int)
    (out : VariantArraySchema) : Run (Int × VariantArraySchema) :=
  match VERIFY_OR_THROW .invalid_descriptor (sm.descriptor_ok ad) with
  | .error e => { result := .error e, manager := sm, calls := [] }
  | .ok _ =>
    match vec_get sm.m_open_arrays_info_vector (to_size_t ad) with
    | .error e => { result := .error e, manager := sm, calls := [] }
    | .ok h =>
      match get_array_schema_by_name C sm h.get_array_name out with
      | (.error e, calls) => { result := .error e, manager := sm, calls := calls }
      | (.ok (status, schema), calls) =>
        if status == TILEDB_OK then
          { result := .ok (status, schema),
            manager :=
              { sm with
                m_open_arrays_info_vector :=
                  sm.m_open_arrays_info_vector.set (to_size_t ad) (h.set_schema schema) },
            calls := calls }
        else { result := .ok (status, schema), manager := sm, calls := calls }

/-- The function `VariantStorageManager::begin` (lines 307-317). -/
def begin (C : Context) (sm : VariantStorageManager) (ad : Int) (range : List Int)
    (attribute_ids : List Int) : Run VariantArrayCellIterator :=
  match VERIFY_OR_THROW .invalid_descriptor (sm.descriptor_ok ad) with
  | .error e => { result := .error e, manager := sm, calls := [] }
  | .ok _ =>
    match vec_get sm.m_open_arrays_info_vector (to_size_t ad) with
    | .error e => { result := .error e, manager := sm, calls := [] }
    | .ok curr_elem =>
      let r := VariantArrayCellIterator.create C.engine curr_elem.get_schema
        (sm.array_path curr_elem.get_array_name) range attribute_ids sm.m_segment_size
      { result := r.1, manager := sm, calls := r.2 }

/-- The function `VariantStorageManager::write_cell_sorted` (lines 319-324). -/
def write_cell_sorted (C : Context) (sm : VariantStorageManager) (ad : Int) (cell : InputCell) :
    Run Unit :=
  match assert C.NDEBUG (sm.descriptor_ok ad) with
  | .error e => { result := .error e, manager := sm, calls := [] }
  | .ok _ =>
    match vec_get sm.m_open_arrays_info_vector (to_size_t ad) with
    | .error e => { result := .error e, manager := sm, calls := [] }
    | .ok h =>
      match h.write_cell C.NDEBUG C.engine cell with
      | .error e => { result := .error e, manager := sm, calls := [] }
      | .ok (h, calls) =>
        { result := .ok (),
          manager :=
            { sm with
              m_open_arrays_info_vector := sm.m_open_arrays_info_vector.set (to_size_t ad) h },
          calls := calls }

end VariantStorageManager

/-! ## Vocabulary of the statements -/

/-- The number of variable-length attributes of a schema (`b` in the specification). -/
def variable_length_count (s : VariantArraySchema) : Nat :=
  s.m_attributes_vector.countP AttributeInfo.is_variable_length

/-- The number of fixed-length attributes of a schema (`a` in the specification). -/
def fixed_length_count (s : VariantArraySchema) : Nat :=
  s.m_attributes_vector.countP fun a => !a.is_variable_length

/-- The number of buffers the attribute `idx` needs: two when it is variable-length. -/
def slots_of_attribute (s : VariantArraySchema) (idx : Int) : Nat :=
  if s.is_variable_length_field idx = some true then 2 else 1

/-- The first slot of attribute `i`: `i` plus the number of variable-length attributes
before it. For a variable-length attribute this is its offsets slot. -/
def first_slot (s : VariantArraySchema) (i : Nat) : Nat :=
  i + (s.m_attributes_vector.take i).countP AttributeInfo.is_variable_length

/-- The value slot of attribute `i`: `i` plus the number of variable-length attributes
of index at most `i`. -/
def value_slot (s : VariantArraySchema) (i : Nat) : Nat :=
  i + (s.m_attributes_vector.take (i + 1)).countP AttributeInfo.is_variable_length

/-- The coordinates slot: the one after the slots of all attributes. -/
def coords_slot (s : VariantArraySchema) : Nat := first_slot s s.attribute_num

/-- The layout a handle constructed in write mode keeps between calls of `write_cell`:
tables of the right length, offsets slots and the coordinates slot pointing at their
own buffers, zeroed offsets buffers and a coordinates buffer, all of `cap` bytes. -/
structure WriteLayout (h : VariantArrayInfo) (cap : Nat) : Prop where
  buffers_length : h.m_buffers.length = coords_slot h.m_schema + 1
  pointers_length : h.m_buffer_pointers.length = coords_slot h.m_schema + 1
  sizes_length : h.m_buffer_sizes.length = coords_slot h.m_schema + 1
  offsets_pointer : ∀ i : Nat, h.m_schema.is_variable_length_field i = some true →
    h.m_buffer_pointers[first_slot h.m_schema i]? = some (.buffer (first_slot h.m_schema i))
  coords_pointer :
    h.m_buffer_pointers[coords_slot h.m_schema]? = some (.buffer (coords_slot h.m_schema))
  offsets_buffer : ∀ i : Nat, h.m_schema.is_variable_length_field i = some true →
    h.m_buffers[first_slot h.m_schema i]? = some (new_buffer cap)
  coords_buffer : ∃ b, h.m_buffers[coords_slot h.m_schema]? = some b ∧ b.length = cap

/-- The state of the staging loop of `write_cell` on the handle `h` before attribute
`i` is visited. -/
structure Staged (h : VariantArrayInfo) (cap : Nat) (cell : InputCell) (i : Nat)
    (st : Nat × VariantArrayInfo) : Prop where
  cursor : st.1 = first_slot h.m_schema i
  frame : st.2 = { h with m_buffer_pointers := st.2.m_buffer_pointers,
                          m_buffer_sizes := st.2.m_buffer_sizes }
  pointers_length : st.2.m_buffer_pointers.length = h.m_buffer_pointers.length
  sizes_length : st.2.m_buffer_sizes.length = h.m_buffer_sizes.length
  untouched : ∀ j, first_slot h.m_schema i ≤ j →
    st.2.m_buffer_pointers[j]? = h.m_buffer_pointers[j]?
  values : ∀ k, k < i →
    st.2.m_buffer_pointers[value_slot h.m_schema k]?
        = some (.caller (cell.get_field_ptr_for_query_idx k))
      ∧ st.2.m_buffer_sizes[value_slot h.m_schema k]? = some (cell.get_field_size_in_bytes k)
  offsets : ∀ k, k < i → h.m_schema.is_variable_length_field k = some true →
    st.2.m_buffer_pointers[first_slot h.m_schema k]? = some (.buffer (first_slot h.m_schema k))
      ∧ st.2.m_buffer_sizes[first_slot h.m_schema k]? = some sizeof_size_t
      ∧ sizeof_size_t ≤ cap

/-- What `write_cell` has staged in the handle `staged` once it has run on the handle
`h` with the record `cell`. -/
structure CellStaged (h : VariantArrayInfo) (cap : Nat) (cell : InputCell)
    (staged : VariantArrayInfo) : Prop where
  layout : WriteLayout staged cap
  schema : staged.m_schema = h.m_schema
  values : ∀ k, k < h.m_schema.attribute_num →
    staged.m_buffer_pointers[value_slot h.m_schema k]?
        = some (.caller (cell.get_field_ptr_for_query_idx k))
      ∧ staged.m_buffer_sizes[value_slot h.m_schema k]? = some (cell.get_field_size_in_bytes k)
  offsets : ∀ k : Nat, h.m_schema.is_variable_length_field k = some true →
    staged.m_buffer_pointers[first_slot h.m_schema k]? = some (.buffer (first_slot h.m_schema k))
      ∧ staged.m_buffer_sizes[first_slot h.m_schema k]? = some sizeof_size_t
      ∧ staged.m_buffers[first_slot h.m_schema k]? = some (new_buffer cap)
      ∧ sizeof_size_t ≤ cap
  coords :
    staged.m_buffer_pointers[coords_slot h.m_schema]? = some (.buffer (coords_slot h.m_schema))
      ∧ staged.m_buffer_sizes[coords_slot h.m_schema]? = some h.m_schema.dim_size_in_bytes
      ∧ (∃ b, staged.m_buffers[coords_slot h.m_schema]? = some b
          ∧ b.take h.m_schema.dim_size_in_bytes = cell.bytes.take h.m_schema.dim_size_in_bytes)
      ∧ h.m_schema.dim_size_in_bytes ≤ cell.bytes.length
      ∧ h.m_schema.dim_size_in_bytes ≤ cap

/-- The failure the specification calls InvalidHandleError: the exception thrown by
`VERIFY_OR_THROW` on the descriptor condition. -/
def InvalidHandleError : Failure :=
  .thrown (.VariantStorageManagerException .invalid_descriptor)

/-- The failure the specification calls a configuration error for an unknown mode. -/
def UnknownModeError : Failure :=
  .thrown (.VariantStorageManagerException .unknown_mode)

/-- A descriptor is valid when it is at least `0`, below the number of registered
handles, and the handle in its slot has a non-empty array name. -/
def valid_descriptor (sm : VariantStorageManager) (ad : Int) : Prop :=
  0 ≤ ad ∧ ad < sm.m_open_arrays_info_vector.length
    ∧ ∃ h, sm.m_open_arrays_info_vector[ad.toNat]? = some h ∧ h.m_name ≠ ""

/-- A call that, when it fails, does not fail with the invalid-handle exception. -/
def NotInvalidHandle {α : Type} (x : Except Failure α) : Prop :=
  ∀ e, x = .error e → e ≠ InvalidHandleError

/-! ## Concrete inputs

The scenario of the specification: the array `vars` with two dimensions of domain
`[0,100]`, the fixed-length attribute `count` (one 32-bit integer) and the
variable-length attribute `tags`; the cell `count = 5`, `tags = "AB"` at `(3, 7)`. -/

def example_schema : VariantArraySchema :=
  { m_array_name := "vars", m_cell_order := TILEDB_COL_MAJOR,
    m_attributes_vector :=
      [{ m_name := "count", m_type := .other 0, m_length := 1, m_compression_type := 0 },
       { m_name := "tags", m_type := .other 4, m_length := TILEDB_VAR_NUM,
         m_compression_type := 0 }],
    m_dim_names := ["x", "y"], m_dim_domains := [(0, 100), (0, 100)],
    m_dim_type := .int64_t, m_dim_compression_type := 0, m_dim_size_in_bytes := 16 }

/-- A flat record laid out as the specification describes it: the field bytes in schema
order (`count = 5`, then `tags = "AB"`) followed by the coordinates `(3, 7)`. -/
def example_cell : InputCell :=
  { ptr := 4096
    bytes := [5, 0, 0, 0] ++ [65, 66] ++ ([3, 0, 0, 0, 0, 0, 0, 0] ++ [7, 0, 0, 0, 0, 0, 0, 0])
    get_field_ptr_for_query_idx := fun i => if i = 0 then 4096 else 4100
    get_field_size_in_bytes := fun i => if i = 0 then 4 else 2 }

/-- An engine schema with no attribute and no dimension. -/
def empty_engine_schema : TileDB_ArraySchema :=
  { array_name_ := "", attributes_ := [], attribute_num_ := 0, dimensions_ := [], dim_num_ := 0,
    dense_ := 0, domain_ := [], tile_extents_ := none, types_ := [], cell_val_num_ := [],
    cell_order_ := 0, tile_order_ := 0, capacity_ := 0, compression_ := [0] }

/-- An engine every call of which succeeds. -/
def example_engine : TileDB :=
  { tiledb_array_init := fun _ _ => (TILEDB_OK, some 1)
    tiledb_array_load_schema := fun _ => (TILEDB_OK, empty_engine_schema)
    tiledb_array_create := fun _ => TILEDB_OK
    tiledb_array_iterator_init := fun _ _ _ _ _ => TILEDB_OK
    tiledb_array_write := fun _ _ _ => TILEDB_OK }

/-- An engine whose buffered write fails. -/
def failing_write_engine : TileDB :=
  { example_engine with tiledb_array_write := fun _ _ _ => TILEDB_ERR }

/-- An engine that cannot open any array. -/
def failing_open_engine : TileDB :=
  { example_engine with tiledb_array_init := fun _ _ => (TILEDB_ERR, none) }

/-- A type mapping between the types `other 0`, `int64_t`, `other 2`, `other 3`,
`other 4` and the engine types `0` to `4`; no other type is mapped. -/
def example_util : VariantFieldTypeUtil :=
  { get_tiledb_type_for_variant_field_type := fun t =>
      match t with
      | .int64_t => some 1
      | .other 0 => some 0
      | .other 2 => some 2
      | .other 3 => some 3
      | .other 4 => some 4
      | _ => none
    get_variant_field_type_for_tiledb_type := fun n =>
      if n = 1 then some .int64_t
      else if n = 0 then some (.other 0)
      else if n = 2 then some (.other 2)
      else if n = 3 then some (.other 3)
      else if n = 4 then some (.other 4)
      else none
    size := fun t =>
      match t with
      | .int64_t => 8
      | .other 3 => 8
      | .other 4 => 1
      | _ => 4 }

/-- A build with assertions enabled. -/
def example_context : Context :=
  { engine := example_engine, util := example_util, default_buffer_size := 32,
    NDEBUG := false }

/-- The same surroundings in a build that defines `NDEBUG`. -/
def release_context : Context := { example_context with NDEBUG := true }

/-- The handle of `vars` opened for writing, with buffers of 32 bytes. -/
def example_handle : VariantArrayInfo :=
  VariantArrayInfo.create 0 TILEDB_ARRAY_WRITE "vars" example_schema (some 1) 32

def example_manager : VariantStorageManager :=
  { m_workspace := "ws", m_segment_size := 32, m_open_arrays_info_vector := [example_handle] }

/-- The handle `example_handle` after `example_cell` has been written to it. -/
def example_handle_written : VariantArrayInfo :=
  { example_handle with
    m_buffers := [new_buffer 32, new_buffer 32, new_buffer 32,
      [5, 0, 0, 0, 65, 66, 3, 0, 0, 0, 0, 0, 0, 0, 7, 0] ++ List.replicate 16 0]
    m_buffer_pointers := [.caller 4096, .buffer 1, .caller 4100, .buffer 3]
    m_buffer_sizes := [4, 8, 2, 16] }

/-- The handle `example_handle_written` after a relocation. -/
def example_handle_moved : VariantArrayInfo :=
  { example_handle_written with
    m_buffer_pointers := [.buffer 0, .buffer 1, .buffer 2, .buffer 3] }

/-- The engine schema `define_array` builds from `example_schema` in `example_manager`. -/
def example_engine_schema : TileDB_ArraySchema :=
  { array_name_ := "ws/vars", attributes_ := ["count", "tags"], attribute_num_ := 2,
    dimensions_ := ["x", "y"], dim_num_ := 2, dense_ := 0, domain_ := [0, 100, 0, 100],
    tile_extents_ := none, types_ := [0, 4, 1], cell_val_num_ := [1, TILEDB_VAR_NUM],
    cell_order_ := TILEDB_COL_MAJOR, tile_order_ := 0, capacity_ := 1000,
    compression_ := [0, 0, 0] }

/-- An engine that stores the array `ws/vars` with the schema `example_engine_schema`. -/
def engine_with_vars : TileDB :=
  { example_engine with
    tiledb_array_load_schema := fun path =>
      if path = "ws/vars" then (TILEDB_OK, example_engine_schema)
      else (TILEDB_ERR, empty_engine_schema) }

/-- An engine whose array `ws/foreign` has one attribute of the engine type `99`. -/
def engine_with_foreign_schema : TileDB :=
  { example_engine with
    tiledb_array_load_schema := fun _ =>
      (TILEDB_OK,
        { empty_engine_schema with
          attributes_ := ["a"], attribute_num_ := 1, types_ := [99, 1], cell_val_num_ := [1],
          compression_ := [0, 0] }) }

/-! ## Properties

First the facts about the slot arithmetic and the staging loop, then the statements
about the claims `C1` to `C10` of the specification. -/

theorem attribute_at_natCast (s : VariantArraySchema) (i : Nat) :
    s.attribute_at (i : Int) = s.m_attributes_vector[i]? := by
  simp [VariantArraySchema.attribute_at]

theorem is_variable_length_field_natCast (s : VariantArraySchema) (i : Nat) :
    s.is_variable_length_field (i : Int)
      = (s.m_attributes_vector[i]?).map AttributeInfo.is_variable_length := by
  simp [VariantArraySchema.is_variable_length_field, attribute_at_natCast]

theorem is_variable_length_field_of_lt (s : VariantArraySchema) (i : Nat)
    (hi : i < s.attribute_num) :
    s.is_variable_length_field (i : Int) = some (s.m_attributes_vector[i]).is_variable_length := by
  rw [is_variable_length_field_natCast, List.getElem?_eq_getElem hi]; rfl

theorem lt_of_is_variable_length_field (s : VariantArraySchema) (i : Nat) (b : Bool)
    (h : s.is_variable_length_field (i : Int) = some b) : i < s.attribute_num := by
  rw [is_variable_length_field_natCast] at h
  by_contra hn
  rw [List.getElem?_eq_none (Nat.le_of_not_lt hn)] at h
  cases h

theorem first_slot_zero (s : VariantArraySchema) : first_slot s 0 = 0 := by
  simp [first_slot]

theorem first_slot_succ (s : VariantArraySchema) (i : Nat) (hi : i < s.attribute_num) :
    first_slot s (i + 1)
      = first_slot s i + (if s.is_variable_length_field i = some true then 2 else 1) := by
  have hlt : i < s.m_attributes_vector.length := hi
  rw [is_variable_length_field_of_lt s i hi]
  unfold first_slot
  rw [List.take_succ, List.countP_append, List.getElem?_eq_getElem hlt]
  cases hv : (s.m_attributes_vector[i]).is_variable_length <;>
    simp [List.countP_cons, hv] <;> omega

theorem value_slot_eq (s : VariantArraySchema) (i : Nat) (hi : i < s.attribute_num) :
    value_slot s i
      = first_slot s i + (if s.is_variable_length_field i = some true then 1 else 0) := by
  have h := first_slot_succ s i hi
  unfold first_slot at h
  unfold value_slot first_slot
  split at h <;> simp_all <;> omega

theorem first_slot_mono (s : VariantArraySchema) (i j : Nat) (hij : i ≤ j)
    (hj : j ≤ s.attribute_num) : first_slot s i ≤ first_slot s j := by
  induction j with
  | zero => simp_all
  | succ j ih =>
    rcases Nat.eq_or_lt_of_le hij with h | h
    · subst h; exact Nat.le_refl _
    · have := ih (Nat.lt_succ_iff.mp h) (Nat.le_of_succ_le hj)
      have h2 := first_slot_succ s j hj
      omega

theorem value_slot_lt_first_slot (s : VariantArraySchema) (k i : Nat) (hk : k < i)
    (hi : i ≤ s.attribute_num) : value_slot s k < first_slot s i := by
  have hk' : k < s.attribute_num := Nat.lt_of_lt_of_le hk hi
  have h1 := value_slot_eq s k hk'
  have h2 := first_slot_succ s k hk'
  have h3 := first_slot_mono s (k + 1) i hk hi
  split at h1 <;> simp_all <;> omega

theorem first_slot_le_value_slot (s : VariantArraySchema) (k : Nat) (hk : k < s.attribute_num) :
    first_slot s k ≤ value_slot s k := by
  have h1 := value_slot_eq s k hk
  omega

theorem vec_get_eq {α : Type} (v : List α) (i : Nat) (a : α) (h : v[i]? = some a) :
    vec_get v i = .ok a := by
  simp [vec_get, h]

theorem vec_set_eq {α : Type} (v : List α) (i : Nat) (a : α) (h : i < v.length) :
    vec_set v i a = .ok (v.set i a) := by
  simp [vec_set, h]

theorem set_eq_self_of_getElem? {α : Type} (v : List α) (i : Nat) (a : α)
    (h : v[i]? = some a) : v.set i a = v := by
  apply List.ext_getElem?
  intro j
  by_cases hij : i = j
  · subst hij
    rw [List.getElem?_set_self' , h]; simp
  · rw [List.getElem?_set_ne hij]

theorem new_buffer_store_zero (cap : Nat) (h : sizeof_size_t ≤ cap) :
    size_t_zero_bytes ++ (new_buffer cap).drop size_t_zero_bytes.length = new_buffer cap := by
  simp only [size_t_zero_bytes, new_buffer, List.length_replicate, List.drop_replicate,
    List.append_replicate_replicate]
  congr 1
  unfold sizeof_size_t at *
  omega

theorem staged_next (h : VariantArrayInfo) (cap : Nat) (cell : InputCell) (i : Nat)
    (h1 : VariantArrayInfo) (P : List Ptr) (S : List Nat)
    (hl : WriteLayout h cap) (hi : i < h.m_schema.attribute_num)
    (hs : Staged h cap cell i (first_slot h.m_schema i, h1))
    (hPl : P.length = h1.m_buffer_pointers.length) (hSl : S.length = h1.m_buffer_sizes.length)
    (hP : ∀ j, j ≠ value_slot h.m_schema i → P[j]? = h1.m_buffer_pointers[j]?)
    (hPv : P[value_slot h.m_schema i]? = some (.caller (cell.get_field_ptr_for_query_idx i)))
    (hS : ∀ j, j < first_slot h.m_schema i → S[j]? = h1.m_buffer_sizes[j]?)
    (hSv : S[value_slot h.m_schema i]? = some (cell.get_field_size_in_bytes i))
    (hSo : h.m_schema.is_variable_length_field i = some true →
      S[first_slot h.m_schema i]? = some sizeof_size_t ∧ sizeof_size_t ≤ cap) :
    Staged h cap cell (i + 1)
      (first_slot h.m_schema (i + 1),
        { h1 with m_buffer_pointers := P, m_buffer_sizes := S }) := by
  have hsucc := first_slot_succ h.m_schema i hi
  have hvs := value_slot_eq h.m_schema i hi
  have hnum : value_slot h.m_schema i < first_slot h.m_schema (i + 1) := by
    by_cases hvar : h.m_schema.is_variable_length_field i = some true
    · rw [if_pos hvar] at hsucc hvs; omega
    · rw [if_neg hvar] at hsucc hvs; omega
  have hfr := hs.frame
  simp only at hfr
  refine ⟨rfl, ?_, ?_, ?_, ?_, ?_, ?_⟩
  · simp only
    rw [hfr]
  · simpa using hPl.trans hs.pointers_length
  · simpa using hSl.trans hs.sizes_length
  · intro j hj
    simp only
    rw [hP j (by omega)]
    exact hs.untouched j (by omega)
  · intro k hk
    simp only
    rcases Nat.lt_succ_iff_lt_or_eq.mp hk with hlt | heq
    · have h1k := value_slot_lt_first_slot h.m_schema k i hlt (Nat.le_of_lt hi)
      have h2k := first_slot_le_value_slot h.m_schema i hi
      rw [hP _ (by omega), hS _ h1k]
      exact hs.values k hlt
    · subst heq; exact ⟨hPv, hSv⟩
  · intro k hk hvar
    simp only
    rcases Nat.lt_succ_iff_lt_or_eq.mp hk with hlt | heq
    · have hk' : k < h.m_schema.attribute_num := Nat.lt_trans hlt hi
      have h1k := value_slot_lt_first_slot h.m_schema k i hlt (Nat.le_of_lt hi)
      have h2k := first_slot_le_value_slot h.m_schema i hi
      have h3k := first_slot_le_value_slot h.m_schema k hk'
      rw [hP _ (by omega), hS _ (by omega)]
      exact hs.offsets k hlt hvar
    · subst heq
      have hne : first_slot h.m_schema k ≠ value_slot h.m_schema k := by
        rw [hvs]; simp [hvar]
      rw [hP _ hne, hs.untouched _ (Nat.le_refl _)]
      exact ⟨hl.offsets_pointer k hvar, (hSo hvar).1, (hSo hvar).2⟩

theorem write_cell_attribute_spec (ndebug : Bool) (h : VariantArrayInfo) (cap : Nat) (cell : InputCell) (i : Nat)
    (st : Nat × VariantArrayInfo) (hl : WriteLayout h cap) (hi : i < h.m_schema.attribute_num)
    (hs : Staged h cap cell i st) :
    (sizeof_size_t ≤ cap → ∃ st', VariantArrayInfo.write_cell_attribute ndebug cell i st = .ok st') ∧
    (∀ st', VariantArrayInfo.write_cell_attribute ndebug cell i st = .ok st' →
      Staged h cap cell (i + 1) st') ∧
    (∀ e, VariantArrayInfo.write_cell_attribute ndebug cell i st = .error e →
      e = .undefined_behaviour) := by
  obtain ⟨c, h1⟩ := st
  have hc : c = first_slot h.m_schema i := hs.cursor
  have hsch : h1.m_schema = h.m_schema := by
    simpa using congrArg VariantArrayInfo.m_schema hs.frame
  have hbuf : h1.m_buffers = h.m_buffers := by
    simpa using congrArg VariantArrayInfo.m_buffers hs.frame
  have hpl : h1.m_buffer_pointers.length = coords_slot h.m_schema + 1 :=
    hs.pointers_length.trans hl.pointers_length
  have hsl : h1.m_buffer_sizes.length = coords_slot h.m_schema + 1 :=
    hs.sizes_length.trans hl.sizes_length
  have hsucc := first_slot_succ h.m_schema i hi
  have hN : first_slot h.m_schema (i + 1) ≤ coords_slot h.m_schema :=
    first_slot_mono h.m_schema (i + 1) _ hi (Nat.le_refl _)
  have hvs := value_slot_eq h.m_schema i hi
  have hfield := is_variable_length_field_of_lt h.m_schema i hi
  subst hc
  unfold VariantArrayInfo.write_cell_attribute
  cases hv : (h.m_schema.m_attributes_vector[i]).is_variable_length
  · -- a fixed-length attribute: its value slot is the cursor
    rw [hv] at hfield
    have hne : ¬ (h.m_schema.is_variable_length_field i = some true) := by simp [hfield]
    rw [if_neg hne] at hsucc hvs
    have hlt : first_slot h.m_schema i < h1.m_buffer_pointers.length := by omega
    have hlt2 : first_slot h.m_schema i < h1.m_buffer_sizes.length := by omega
    simp only [hsch, hfield, assert, hlt, decide_True, Bool.or_true, if_true, vec_set_eq _ _ _ hlt,
      vec_set_eq _ _ _ hlt2, bind, Except.bind, pure, Except.pure]
    refine ⟨fun _ => ⟨_, rfl⟩, ?_, fun e he => by cases he⟩
    intro st' hst
    simp only [Except.ok.injEq] at hst
    subst hst
    have hnext := staged_next h cap cell i h1
      (h1.m_buffer_pointers.set (first_slot h.m_schema i)
        (.caller (cell.get_field_ptr_for_query_idx i)))
      (h1.m_buffer_sizes.set (first_slot h.m_schema i) (cell.get_field_size_in_bytes i))
      hl hi hs (by simp) (by simp)
      (by intro j hj; rw [List.getElem?_set_ne (by omega)])
      (by rw [hvs, Nat.add_zero, List.getElem?_set_self hlt])
      (by intro j hj; rw [List.getElem?_set_ne (by omega)])
      (by rw [hvs, Nat.add_zero, List.getElem?_set_self hlt2])
      (by intro hvar; exact absurd hvar hne)
    rw [hsucc] at hnext
    simpa [hsch] using hnext
  · -- a variable-length attribute: the offsets slot, then the value slot
    rw [hv] at hfield
    rw [if_pos hfield] at hsucc hvs
    have hlt : first_slot h.m_schema i < h1.m_buffer_pointers.length := by omega
    have hlt2 : first_slot h.m_schema i < h1.m_buffer_sizes.length := by omega
    have hlt3 : first_slot h.m_schema i + 1 < h1.m_buffer_pointers.length := by omega
    have hlt4 : first_slot h.m_schema i + 1
        < (h1.m_buffer_sizes.set (first_slot h.m_schema i) sizeof_size_t).length := by
      simp; omega
    have hptr : h1.m_buffer_pointers[first_slot h.m_schema i]?
        = some (.buffer (first_slot h.m_schema i)) := by
      rw [hs.untouched _ (Nat.le_refl _)]; exact hl.offsets_pointer i hfield
    have hb := hl.offsets_buffer i hfield
    by_cases hcap : sizeof_size_t ≤ cap
    · have hcap2 : size_t_zero_bytes.length ≤ (new_buffer cap).length := by
        simpa [size_t_zero_bytes, new_buffer] using hcap
      have hstore : store_bytes h.m_buffers (.buffer (first_slot h.m_schema i)) size_t_zero_bytes
          = .ok h.m_buffers := by
        simp only [store_bytes, hb, hcap2, if_true, new_buffer_store_zero cap hcap]
        rw [set_eq_self_of_getElem? _ _ _ hb]
      simp only [hsch, hfield, assert, hlt, decide_True, Bool.or_true, if_true, vec_get_eq _ _ _ hptr, hbuf,
        hstore, vec_set_eq _ _ _ hlt2, vec_set_eq _ _ _ hlt3, vec_set_eq _ _ _ hlt4,
        bind, Except.bind, pure, Except.pure]
      refine ⟨fun _ => ⟨_, rfl⟩, ?_, fun e he => by cases he⟩
      intro st' hst
      simp only [Except.ok.injEq] at hst
      subst hst
      have hnext := staged_next h cap cell i h1
        (h1.m_buffer_pointers.set (first_slot h.m_schema i + 1)
          (.caller (cell.get_field_ptr_for_query_idx i)))
        ((h1.m_buffer_sizes.set (first_slot h.m_schema i) sizeof_size_t).set
          (first_slot h.m_schema i + 1) (cell.get_field_size_in_bytes i))
        hl hi hs (by simp) (by simp)
        (by intro j hj; rw [List.getElem?_set_ne (by omega)])
        (by rw [hvs, List.getElem?_set_self hlt3])
        (by intro j hj
            rw [List.getElem?_set_ne (by omega), List.getElem?_set_ne (by omega)])
        (by rw [hvs, List.getElem?_set_self hlt4])
        (by intro _
            refine ⟨?_, hcap⟩
            rw [List.getElem?_set_ne (by omega), List.getElem?_set_self hlt2])
      rw [hsucc] at hnext
      simpa [hsch, hbuf, Nat.add_assoc] using hnext
    · have hcap2 : ¬ size_t_zero_bytes.length ≤ (new_buffer cap).length := by
        simpa [size_t_zero_bytes, new_buffer] using hcap
      have hstore : store_bytes h.m_buffers (.buffer (first_slot h.m_schema i)) size_t_zero_bytes
          = .error .undefined_behaviour := by
        simp only [store_bytes, hb, hcap2, if_false]
      simp only [hsch, hfield, assert, hlt, decide_True, Bool.or_true, if_true, vec_get_eq _ _ _ hptr, hbuf,
        hstore, bind, Except.bind]
      exact ⟨fun hc => absurd hc hcap, fun st' hst => (by cases hst),
        fun e he => (by cases he; rfl)⟩

theorem staged_init (h : VariantArrayInfo) (cap : Nat) (cell : InputCell) :
    Staged h cap cell 0 (0, h) := by
  refine ⟨(first_slot_zero _).symm, rfl, rfl, rfl, fun _ _ => rfl, ?_, ?_⟩
  · intro k hk; exact absurd hk (Nat.not_lt_zero _)
  · intro k hk; exact absurd hk (Nat.not_lt_zero _)

theorem for_loop_staged (ndebug : Bool) (h : VariantArrayInfo) (cap : Nat) (cell : InputCell)
    (hl : WriteLayout h cap) :
    ∀ (count i : Nat) (st : Nat × VariantArrayInfo), i + count ≤ h.m_schema.attribute_num →
      Staged h cap cell i st →
      (sizeof_size_t ≤ cap →
        ∃ st', for_loop (VariantArrayInfo.write_cell_attribute ndebug cell) count i st = .ok st') ∧
      (∀ st', for_loop (VariantArrayInfo.write_cell_attribute ndebug cell) count i st = .ok st' →
        Staged h cap cell (i + count) st') ∧
      (∀ e, for_loop (VariantArrayInfo.write_cell_attribute ndebug cell) count i st = .error e →
        e = .undefined_behaviour) := by
  intro count
  induction count with
  | zero =>
    intro i st _ hs
    refine ⟨fun _ => ⟨st, rfl⟩, ?_, fun e he => by cases he⟩
    intro st' hst
    simp only [for_loop, Except.ok.injEq] at hst
    subst hst; exact hs
  | succ count ih =>
    intro i st hi hs
    have hstep := write_cell_attribute_spec ndebug h cap cell i st hl (by omega) hs
    refine ⟨?_, ?_, ?_⟩
    · intro hcap
      obtain ⟨st1, h1⟩ := hstep.1 hcap
      obtain ⟨st2, h2⟩ := (ih (i + 1) st1 (by omega) (hstep.2.1 st1 h1)).1 hcap
      exact ⟨st2, by simp only [for_loop, h1, Except.bind]; exact h2⟩
    · intro st' hst
      simp only [for_loop] at hst
      cases h1 : VariantArrayInfo.write_cell_attribute ndebug cell i st with
      | error e => rw [h1] at hst; cases hst
      | ok st1 =>
        rw [h1] at hst
        have := (ih (i + 1) st1 (by omega) (hstep.2.1 st1 h1)).2.1 st' hst
        rwa [Nat.add_assoc, Nat.add_comm 1 count] at this
    · intro e he
      simp only [for_loop] at he
      cases h1 : VariantArrayInfo.write_cell_attribute ndebug cell i st with
      | error e1 =>
        rw [h1] at he
        simp only [Except.bind, Except.error.injEq] at he
        subst he
        exact hstep.2.2 e1 h1
      | ok st1 =>
        rw [h1] at he
        exact (ih (i + 1) st1 (by omega) (hstep.2.1 st1 h1)).2.2 e he

theorem size_t_sub_succ_one (n : Nat) : size_t_sub (n + 1) 1 = n := by
  simp [size_t_sub]

theorem stage_cell_spec (ndebug : Bool) (h : VariantArrayInfo) (cap : Nat) (cell : InputCell)
    (hl : WriteLayout h cap) :
    (sizeof_size_t ≤ cap → h.m_schema.dim_size_in_bytes ≤ cap →
      h.m_schema.dim_size_in_bytes ≤ cell.bytes.length →
      ∃ r, VariantArrayInfo.stage_cell ndebug h cell = .ok r) ∧
    (∀ r, VariantArrayInfo.stage_cell ndebug h cell = .ok r →
      r.1 = coords_slot h.m_schema ∧ CellStaged h cap cell r.2) ∧
    (∀ e, VariantArrayInfo.stage_cell ndebug h cell = .error e → e = .undefined_behaviour) := by
  have hloop := for_loop_staged ndebug h cap cell hl h.m_schema.attribute_num 0 (0, h) (by simp)
    (staged_init h cap cell)
  rw [Nat.zero_add] at hloop
  unfold VariantArrayInfo.stage_cell
  cases hL : for_loop (VariantArrayInfo.write_cell_attribute ndebug cell) h.m_schema.attribute_num 0 (0, h) with
  | error e =>
    refine ⟨?_, ?_, ?_⟩
    · intro hcap _ _
      obtain ⟨st', hst⟩ := hloop.1 hcap
      rw [hL] at hst; cases hst
    · intro r hr
      simp only [bind, Except.bind] at hr
      cases hr
    · intro e1 he
      simp only [bind, Except.bind, Except.error.injEq] at he
      subst he
      exact hloop.2.2 e hL
  | ok st1 =>
    obtain ⟨c, h2⟩ := st1
    have hs := hloop.2.1 _ hL
    have hc : c = coords_slot h.m_schema := hs.cursor
    have hsch : h2.m_schema = h.m_schema := by
      simpa using congrArg VariantArrayInfo.m_schema hs.frame
    have hbuf : h2.m_buffers = h.m_buffers := by
      simpa using congrArg VariantArrayInfo.m_buffers hs.frame
    have hpl : h2.m_buffer_pointers.length = coords_slot h.m_schema + 1 :=
      hs.pointers_length.trans hl.pointers_length
    have hsl : h2.m_buffer_sizes.length = coords_slot h.m_schema + 1 :=
      hs.sizes_length.trans hl.sizes_length
    have hptr : h2.m_buffer_pointers[coords_slot h.m_schema]?
        = some (.buffer (coords_slot h.m_schema)) :=
      (hs.untouched (coords_slot h.m_schema) (Nat.le_refl _)).trans hl.coords_pointer
    obtain ⟨b, hb, hblen⟩ := hl.coords_buffer
    have hlt2 : coords_slot h.m_schema < h2.m_buffer_sizes.length := by omega
    have hlt3 : coords_slot h.m_schema < h.m_buffers.length := by
      rw [hl.buffers_length]; omega
    subst hc
    by_cases hd : h.m_schema.dim_size_in_bytes ≤ cell.bytes.length
    · have htl : (cell.bytes.take h.m_schema.dim_size_in_bytes).length
          = h.m_schema.dim_size_in_bytes := by
        rw [List.length_take]; omega
      by_cases hdc : h.m_schema.dim_size_in_bytes ≤ cap
      · simp only [bind, Except.bind, hbuf, hl.buffers_length, size_t_sub_succ_one, assert,
          beq_self_eq_true, Bool.or_true, if_true, vec_get_eq _ _ _ hptr, hsch, InputCell.read, store_bytes, hb,
          vec_set_eq _ _ _ hlt2, pure, Except.pure, hd, htl, hblen, hdc]
        refine ⟨fun _ _ _ => ⟨_, rfl⟩, ?_, fun e he => by cases he⟩
        intro r hr
        simp only [Except.ok.injEq] at hr
        subst hr
        refine ⟨rfl, ?_⟩
        have hN : ∀ k, k < h.m_schema.attribute_num →
            value_slot h.m_schema k < coords_slot h.m_schema :=
          fun k hk => value_slot_lt_first_slot h.m_schema k _ hk (Nat.le_refl _)
        have hF : ∀ k, k < h.m_schema.attribute_num →
            first_slot h.m_schema k < coords_slot h.m_schema :=
          fun k hk => Nat.lt_of_le_of_lt (first_slot_le_value_slot h.m_schema k hk) (hN k hk)
        have hoff : ∀ k : Nat, h.m_schema.is_variable_length_field k = some true →
            h2.m_buffer_pointers[first_slot h.m_schema k]?
                = some (.buffer (first_slot h.m_schema k))
              ∧ (h2.m_buffer_sizes.set (coords_slot h.m_schema)
                  h.m_schema.dim_size_in_bytes)[first_slot h.m_schema k]? = some sizeof_size_t
              ∧ (h.m_buffers.set (coords_slot h.m_schema)
                  (cell.bytes.take h.m_schema.dim_size_in_bytes
                    ++ b.drop h.m_schema.dim_size_in_bytes))[first_slot h.m_schema k]?
                  = some (new_buffer cap)
              ∧ sizeof_size_t ≤ cap := by
          intro k hvar
          have hk := lt_of_is_variable_length_field _ _ _ hvar
          have hne : coords_slot h.m_schema ≠ first_slot h.m_schema k :=
            Nat.ne_of_gt (hF k hk)
          have := hs.offsets k hk hvar
          rw [List.getElem?_set_ne hne, List.getElem?_set_ne hne]
          exact ⟨this.1, this.2.1, hl.offsets_buffer k hvar, this.2.2⟩
        refine ⟨⟨?_, ?_, ?_, ?_, ?_, ?_, ?_⟩, rfl, ?_, hoff, ?_⟩
        · simpa [hsch] using hl.buffers_length
        · simpa [hsch] using hpl
        · simpa [hsch] using hsl
        · intro i hvar
          simp only [hsch] at hvar ⊢
          exact (hoff i hvar).1
        · simpa [hsch] using hptr
        · intro i hvar
          simp only [hsch] at hvar ⊢
          exact (hoff i hvar).2.2.1
        · refine ⟨cell.bytes.take h.m_schema.dim_size_in_bytes
            ++ b.drop h.m_schema.dim_size_in_bytes, ?_, ?_⟩
          · exact List.getElem?_set_self hlt3
          · simp only [List.length_append, htl, List.length_drop, hblen]; omega
        · intro k hk
          have := hs.values k hk
          simp only
          rw [List.getElem?_set_ne (Nat.ne_of_gt (hN k hk))]
          exact this
        · refine ⟨hptr, List.getElem?_set_self hlt2,
            ⟨cell.bytes.take h.m_schema.dim_size_in_bytes ++ b.drop h.m_schema.dim_size_in_bytes,
              List.getElem?_set_self hlt3, ?_⟩, hd, hdc⟩
          exact List.take_left' htl
      · simp only [bind, Except.bind, hbuf, hl.buffers_length, size_t_sub_succ_one, assert,
          beq_self_eq_true, Bool.or_true, if_true, vec_get_eq _ _ _ hptr, hsch, InputCell.read, store_bytes, hb,
          hd, htl, hblen, hdc, if_false]
        exact ⟨fun _ h1 _ => h1.elim, fun r hr => (by cases hr),
          fun e he => (by cases he; rfl)⟩
    · simp only [bind, Except.bind, hbuf, hl.buffers_length, size_t_sub_succ_one, assert,
        beq_self_eq_true, Bool.or_true, if_true, vec_get_eq _ _ _ hptr, hsch, InputCell.read, hd, if_false]
      exact ⟨fun _ _ h1 => h1.elim, fun r hr => (by cases hr),
        fun e he => (by cases he; rfl)⟩

theorem allocate_eq_replicate (s : VariantArraySchema) (buffer_size : Nat) (k : Nat)
    (hk : k ≤ s.attribute_num) :
    (List.range k).foldl (VariantArrayInfo.allocate_attribute s buffer_size) []
      = List.replicate (first_slot s k) (new_buffer buffer_size) := by
  induction k with
  | zero => simp [first_slot_zero]
  | succ k ih =>
    have hlt : k < s.attribute_num := hk
    rw [List.range_succ, List.foldl_append, ih (Nat.le_of_lt hlt), first_slot_succ s k hlt]
    simp only [List.foldl_cons, List.foldl_nil, VariantArrayInfo.allocate_attribute]
    by_cases hv : s.is_variable_length_field k = some true
    · simp only [hv, if_true, List.append_assoc]
      rw [show first_slot s k + 2 = first_slot s k + (1 + 1) from rfl,
        ← List.append_replicate_replicate, ← List.append_replicate_replicate]
      rfl
    · simp only [hv, if_false]
      rw [← List.append_replicate_replicate]
      rfl

theorem create_write (idx mode : Int) (name : String) (s : VariantArraySchema)
    (arr : Option Nat) (buffer_size : Nat)
    (hmode : mode = TILEDB_ARRAY_WRITE ∨ mode = TILEDB_ARRAY_WRITE_UNSORTED) :
    VariantArrayInfo.create idx mode name s arr buffer_size
      = { m_idx := idx, m_mode := mode, m_name := name, m_schema := s, m_tiledb_array := arr,
          m_buffers := List.replicate (coords_slot s + 1) (new_buffer buffer_size),
          m_buffer_pointers := (List.range (coords_slot s + 1)).map Ptr.buffer,
          m_buffer_sizes := List.replicate (coords_slot s + 1) buffer_size } := by
  have hm : (mode == TILEDB_ARRAY_WRITE || mode == TILEDB_ARRAY_WRITE_UNSORTED) = true := by
    rcases hmode with h | h <;> simp [h]
  have hb : (List.range s.attribute_num).foldl (VariantArrayInfo.allocate_attribute s buffer_size) []
      ++ [new_buffer buffer_size] = List.replicate (coords_slot s + 1) (new_buffer buffer_size) := by
    rw [allocate_eq_replicate s buffer_size _ (Nat.le_refl _), List.replicate_succ']
    rfl
  simp only [VariantArrayInfo.create, hm, if_true, hb, List.length_replicate, List.map_replicate]
  simp [new_buffer]

theorem create_layout (idx mode : Int) (name : String) (s : VariantArraySchema)
    (arr : Option Nat) (buffer_size : Nat)
    (hmode : mode = TILEDB_ARRAY_WRITE ∨ mode = TILEDB_ARRAY_WRITE_UNSORTED) :
    WriteLayout (VariantArrayInfo.create idx mode name s arr buffer_size) buffer_size := by
  rw [create_write idx mode name s arr buffer_size hmode]
  have hF : ∀ k : Nat, s.is_variable_length_field k = some true →
      first_slot s k < coords_slot s + 1 := by
    intro k hvar
    have hk := lt_of_is_variable_length_field _ _ _ hvar
    have := first_slot_mono s k s.attribute_num (Nat.le_of_lt hk) (Nat.le_refl _)
    unfold coords_slot; omega
  refine ⟨by simp, by simp, by simp, ?_, ?_, ?_, ?_⟩
  · intro i hvar
    simp only at hvar ⊢
    rw [List.getElem?_map, List.getElem?_range (hF i hvar)]; rfl
  · simp only
    rw [List.getElem?_map, List.getElem?_range (Nat.lt_succ_self _)]; rfl
  · intro i hvar
    simp only at hvar ⊢
    exact List.getElem?_replicate_of_lt (hF i hvar)
  · refine ⟨new_buffer buffer_size, ?_, by simp [new_buffer]⟩
    simp only
    exact List.getElem?_replicate_of_lt (Nat.lt_succ_self _)

theorem write_cell_eq (ndebug : Bool) (E : TileDB) (h : VariantArrayInfo) (cell : InputCell) :
    VariantArrayInfo.write_cell ndebug E h cell
      = (VariantArrayInfo.stage_cell ndebug h cell).map fun r =>
          (r.2, [EngineCall.array_write r.2.m_tiledb_array r.2.m_buffer_pointers
            r.2.m_buffer_sizes]) := by
  unfold VariantArrayInfo.write_cell
  cases VariantArrayInfo.stage_cell ndebug h cell <;> rfl

theorem write_cell_spec (ndebug : Bool) (E : TileDB) (h : VariantArrayInfo) (cap : Nat) (cell : InputCell)
    (hl : WriteLayout h cap) :
    (sizeof_size_t ≤ cap → h.m_schema.dim_size_in_bytes ≤ cap →
      h.m_schema.dim_size_in_bytes ≤ cell.bytes.length →
      ∃ r, VariantArrayInfo.write_cell ndebug E h cell = .ok r) ∧
    (∀ r, VariantArrayInfo.write_cell ndebug E h cell = .ok r → CellStaged h cap cell r.1) ∧
    (∀ e, VariantArrayInfo.write_cell ndebug E h cell = .error e → e = .undefined_behaviour) := by
  have hst := stage_cell_spec ndebug h cap cell hl
  rw [write_cell_eq]
  refine ⟨?_, ?_, ?_⟩
  · intro h1 h2 h3
    obtain ⟨r, hr⟩ := hst.1 h1 h2 h3
    exact ⟨_, by rw [hr]; rfl⟩
  · intro r hr
    cases hs : VariantArrayInfo.stage_cell ndebug h cell with
    | error e => rw [hs] at hr; cases hr
    | ok r1 =>
      rw [hs] at hr
      simp only [Except.map, Except.ok.injEq] at hr
      subst hr
      exact (hst.2.1 r1 hs).2
  · intro e he
    cases hs : VariantArrayInfo.stage_cell ndebug h cell with
    | error e1 =>
      rw [hs] at he
      simp only [Except.map, Except.error.injEq] at he
      subst he
      exact hst.2.2 e1 hs
    | ok r1 => rw [hs] at he; cases he

theorem move_layout (h : VariantArrayInfo) (cap : Nat) (hl : WriteLayout h cap) :
    WriteLayout h.move cap := by
  have hF : ∀ k : Nat, h.m_schema.is_variable_length_field k = some true →
      first_slot h.m_schema k < h.m_buffer_pointers.length := by
    intro k hvar
    have hk := lt_of_is_variable_length_field _ _ _ hvar
    have := first_slot_mono h.m_schema k h.m_schema.attribute_num (Nat.le_of_lt hk)
      (Nat.le_refl _)
    have := hl.pointers_length
    unfold coords_slot at this; omega
  refine ⟨hl.buffers_length, ?_, hl.sizes_length, ?_, ?_, hl.offsets_buffer, hl.coords_buffer⟩
  · simpa [VariantArrayInfo.move] using hl.pointers_length
  · intro i hvar
    simp only [VariantArrayInfo.move] at hvar ⊢
    rw [List.getElem?_map, List.getElem?_range (hF i hvar)]; rfl
  · simp only [VariantArrayInfo.move]
    rw [List.getElem?_map, List.getElem?_range (by rw [hl.pointers_length]; omega)]; rfl

theorem replay_layout (ndebug : Bool) (E : TileDB) (cap : Nat)
    (events : List VariantArrayInfo.Event) :
    ∀ (h h' : VariantArrayInfo), WriteLayout h cap →
      VariantArrayInfo.replay ndebug E h events = .ok h' →
      WriteLayout h' cap ∧ h'.m_schema = h.m_schema := by
  induction events with
  | nil =>
    intro h h' hl hw
    simp only [VariantArrayInfo.replay, Except.ok.injEq] at hw
    subst hw; exact ⟨hl, rfl⟩
  | cons event events ih =>
    intro h h' hl hw
    cases event with
    | write cell =>
      simp only [VariantArrayInfo.replay] at hw
      cases h1 : VariantArrayInfo.write_cell ndebug E h cell with
      | error e => rw [h1] at hw; cases hw
      | ok r =>
        rw [h1] at hw
        have hs := (write_cell_spec ndebug E h cap cell hl).2.1 r h1
        have := ih r.1 h' hs.layout hw
        exact ⟨this.1, this.2.trans hs.schema⟩
    | moved =>
      simp only [VariantArrayInfo.replay] at hw
      exact ih h.move h' (move_layout h cap hl) hw

theorem string_length_eq_zero (s : String) : s.length = 0 ↔ s = "" := by
  cases s with
  | mk data =>
    simp [String.length, String.ext_iff]

theorem to_size_t_of_nonneg (ad : Int) (h0 : 0 ≤ ad) (h1 : ad < 2 ^ 31) :
    to_size_t ad = ad.toNat := by
  unfold to_size_t
  omega

theorem to_size_t_of_neg (ad : Int) (h0 : ad < 0) (h1 : -2 ^ 31 ≤ ad) :
    2 ^ 63 ≤ to_size_t ad := by
  unfold to_size_t
  omega

theorem descriptor_ok_iff (sm : VariantStorageManager) (ad : Int)
    (had : -2 ^ 31 ≤ ad ∧ ad < 2 ^ 31) (hsize : sm.m_open_arrays_info_vector.length < 2 ^ 63) :
    sm.descriptor_ok ad = true ↔ valid_descriptor sm ad := by
  unfold VariantStorageManager.descriptor_ok valid_descriptor
  by_cases h0 : 0 ≤ ad
  · rw [to_size_t_of_nonneg ad h0 had.2]
    cases hget : sm.m_open_arrays_info_vector[ad.toNat]? with
    | none =>
      simp only [Option.any, Bool.and_false, Bool.false_eq_true, false_iff]
      rintro ⟨_, _, h, hh, _⟩
      cases hh
    | some a =>
      have hlt : ad.toNat < sm.m_open_arrays_info_vector.length := by
        by_contra hn
        rw [List.getElem?_eq_none (Nat.le_of_not_lt hn)] at hget
        cases hget
      simp only [Option.any, Bool.and_eq_true, decide_eq_true_eq, bne_iff_ne, ne_eq,
        VariantArrayInfo.get_array_name, string_length_eq_zero, Option.some.injEq,
        exists_eq_left']
      constructor
      · rintro ⟨_, hn⟩
        exact ⟨h0, by omega, hn⟩
      · rintro ⟨_, _, hn⟩
        exact ⟨hlt, hn⟩
  · have hbig := to_size_t_of_neg ad (by omega) had.1
    constructor
    · intro h
      simp only [Bool.and_eq_true, decide_eq_true_eq] at h
      omega
    · rintro ⟨h, _⟩
      exact absurd h h0

theorem descriptor_ok_get (sm : VariantStorageManager) (ad : Int)
    (h : sm.descriptor_ok ad = true) :
    ∃ a, sm.m_open_arrays_info_vector[to_size_t ad]? = some a := by
  unfold VariantStorageManager.descriptor_ok at h
  simp only [Bool.and_eq_true, decide_eq_true_eq] at h
  exact ⟨_, List.getElem?_eq_getElem h.1⟩

/-! Failures other than the invalid-handle exception -/

theorem notInvalid_ok {α : Type} (a : α) : NotInvalidHandle (Except.ok a : Except Failure α) := by
  intro e he; cases he

theorem notInvalid_pure {α : Type} (a : α) : NotInvalidHandle (pure a : Except Failure α) := by
  intro e he; cases he

theorem notInvalid_bind {α β : Type} (x : Except Failure α) (f : α → Except Failure β)
    (hx : NotInvalidHandle x) (hf : ∀ a, NotInvalidHandle (f a)) :
    NotInvalidHandle (x >>= f) := by
  intro e he
  cases x with
  | error e1 =>
    simp only [bind, Except.bind, Except.error.injEq] at he
    subst he; exact hx e1 rfl
  | ok a => exact hf a e he

theorem notInvalid_vec_get {α : Type} (v : List α) (i : Nat) : NotInvalidHandle (vec_get v i) := by
  intro e he
  unfold vec_get at he
  split at he
  · cases he
  · cases he; simp [InvalidHandleError]

theorem notInvalid_vec_set {α : Type} (v : List α) (i : Nat) (a : α) :
    NotInvalidHandle (vec_set v i a) := by
  intro e he
  unfold vec_set at he
  split at he
  · cases he
  · cases he; simp [InvalidHandleError]

theorem notInvalid_mapped {α : Type} (v : Option α) : NotInvalidHandle (mapped v) := by
  intro e he
  cases v with
  | none => cases he; simp [InvalidHandleError]
  | some a => cases he

theorem notInvalid_accessed {α : Type} (v : Option α) : NotInvalidHandle (accessed v) := by
  intro e he
  cases v with
  | none => cases he; simp [InvalidHandleError]
  | some a => cases he

theorem notInvalid_for_loop {σ : Type} (body : Nat → σ → Except Failure σ)
    (hbody : ∀ i s, NotInvalidHandle (body i s)) :
    ∀ count i s, NotInvalidHandle (for_loop body count i s) := by
  intro count
  induction count with
  | zero => intro i s e he; cases he
  | succ count ih =>
    intro i s e he
    simp only [for_loop] at he
    cases hb : body i s with
    | error e1 =>
      rw [hb] at he
      simp only [Except.bind, Except.error.injEq] at he
      subst he; exact hbody i s e1 hb
    | ok s1 =>
      rw [hb] at he
      exact ih (i + 1) s1 e he

theorem notInvalid_decode_attribute (U : VariantFieldTypeUtil) (t : TileDB_ArraySchema) (i : Nat)
    (st : List String × List Int × List TypeIndex × List Int) :
    NotInvalidHandle (VariantStorageManager.decode_attribute U t i st) := by
  obtain ⟨a, b, c, d⟩ := st
  unfold VariantStorageManager.decode_attribute
  refine notInvalid_bind _ _ (notInvalid_vec_get _ _) fun _ => ?_
  refine notInvalid_bind _ _ (notInvalid_vec_set _ _ _) fun _ => ?_
  refine notInvalid_bind _ _ (notInvalid_vec_get _ _) fun _ => ?_
  refine notInvalid_bind _ _ (notInvalid_vec_set _ _ _) fun _ => ?_
  refine notInvalid_bind _ _ (notInvalid_vec_get _ _) fun _ => ?_
  refine notInvalid_bind _ _ (notInvalid_mapped _) fun _ => ?_
  refine notInvalid_bind _ _ (notInvalid_vec_set _ _ _) fun _ => ?_
  refine notInvalid_bind _ _ (notInvalid_vec_get _ _) fun _ => ?_
  refine notInvalid_bind _ _ (notInvalid_vec_set _ _ _) fun _ => ?_
  exact notInvalid_pure _

theorem notInvalid_decode_dimension (t : TileDB_ArraySchema) (i : Nat)
    (st : List String × List (Int × Int)) :
    NotInvalidHandle (VariantStorageManager.decode_dimension t i st) := by
  obtain ⟨a, b⟩ := st
  unfold VariantStorageManager.decode_dimension
  refine notInvalid_bind _ _ (notInvalid_vec_get _ _) fun _ => ?_
  refine notInvalid_bind _ _ (notInvalid_vec_set _ _ _) fun _ => ?_
  refine notInvalid_bind _ _ (notInvalid_vec_get _ _) fun _ => ?_
  refine notInvalid_bind _ _ (notInvalid_vec_get _ _) fun _ => ?_
  refine notInvalid_bind _ _ (notInvalid_vec_set _ _ _) fun _ => ?_
  exact notInvalid_pure _

theorem notInvalid_decode_schema (U : VariantFieldTypeUtil) (array_name : String)
    (t : TileDB_ArraySchema) :
    NotInvalidHandle (VariantStorageManager.decode_schema U array_name t) := by
  unfold VariantStorageManager.decode_schema
  refine notInvalid_bind _ _
    (notInvalid_for_loop _ (notInvalid_decode_attribute U t) _ _ _) fun st => ?_
  obtain ⟨a, b, c, d⟩ := st
  refine notInvalid_bind _ _ (notInvalid_vec_set _ _ _) fun _ => ?_
  refine notInvalid_bind _ _ (notInvalid_vec_get _ _) fun _ => ?_
  refine notInvalid_bind _ _ (notInvalid_vec_set _ _ _) fun _ => ?_
  refine notInvalid_bind _ _
    (notInvalid_for_loop _ (notInvalid_decode_dimension t) _ _ _) fun st2 => ?_
  obtain ⟨a2, b2⟩ := st2
  exact notInvalid_pure _

theorem notInvalid_get_array_schema_by_name (C : Context) (sm : VariantStorageManager)
    (array_name : String) (out : VariantArraySchema) :
    NotInvalidHandle (sm.get_array_schema_by_name C array_name out).1 := by
  unfold VariantStorageManager.get_array_schema_by_name
  simp only
  split
  · exact notInvalid_ok _
  · split
    · rename_i e he
      intro e1 he1
      simp only [Except.error.injEq] at he1
      subst he1
      exact notInvalid_decode_schema _ _ _ e he
    · exact notInvalid_ok _

theorem collect_error (s : VariantArraySchema) (buffer_size : Nat) (ids : List Int) :
    ∀ (acc : List String × List (List Nat)) (e : Failure),
      VariantArrayCellIterator.collect s buffer_size ids acc = .error e →
      e = .undefined_behaviour := by
  induction ids with
  | nil => intro acc e he; cases he
  | cons id ids ih =>
    rintro ⟨names, bufs⟩ e he
    simp only [VariantArrayCellIterator.collect] at he
    split at he
    · exact ih _ e he
    · cases he; rfl

theorem notInvalid_iterator_create (E : TileDB) (s : VariantArraySchema) (path : String)
    (range ids : List Int) (buffer_size : Nat) :
    NotInvalidHandle (VariantArrayCellIterator.create E s path range ids buffer_size).1 := by
  intro e he
  unfold VariantArrayCellIterator.create at he
  split at he
  · rename_i e1 hc
    simp only [Except.error.injEq] at he
    subst he
    rw [collect_error s buffer_size ids _ _ hc]
    simp [InvalidHandleError]
  · simp only [VERIFY_OR_THROW] at he
    split at he
    · rename_i e1 hv
      simp only [Except.error.injEq] at he
      subst he
      split at hv
      · cases hv
      · cases hv; simp [InvalidHandleError]
    · cases he

theorem bind_eq_ok {α β : Type} (x : Except Failure α) (f : α → Except Failure β) (b : β)
    (h : x >>= f = .ok b) : ∃ a, x = .ok a ∧ f a = .ok b := by
  cases x with
  | error e => cases h
  | ok a => exact ⟨a, rfl, h⟩

theorem vec_set_eq_ok {α : Type} (v w : List α) (i : Nat) (a : α) (h : vec_set v i a = .ok w) :
    w.length = v.length := by
  unfold vec_set at h
  split at h
  · simp only [Except.ok.injEq] at h
    subst h; simp
  · cases h

theorem for_loop_preserves {σ : Type} (body : Nat → σ → Except Failure σ) (P : σ → Prop)
    (hP : ∀ i s s', P s → body i s = .ok s' → P s') :
    ∀ count i s s', P s → for_loop body count i s = .ok s' → P s' := by
  intro count
  induction count with
  | zero =>
    intro i s s' hs h
    simp only [for_loop, Except.ok.injEq] at h
    subst h; exact hs
  | succ count ih =>
    intro i s s' hs h
    simp only [for_loop] at h
    cases hb : body i s with
    | error e => rw [hb] at h; cases h
    | ok s1 =>
      rw [hb] at h
      exact ih (i + 1) s1 s' (hP i s s1 hs hb) h

theorem decode_dimension_lengths (t : TileDB_ArraySchema) (i : Nat)
    (st st' : List String × List (Int × Int))
    (h : VariantStorageManager.decode_dimension t i st = .ok st') :
    st'.1.length = st.1.length ∧ st'.2.length = st.2.length := by
  obtain ⟨a, b⟩ := st
  unfold VariantStorageManager.decode_dimension at h
  obtain ⟨_, _, h⟩ := bind_eq_ok _ _ _ h
  obtain ⟨a', ha, h⟩ := bind_eq_ok _ _ _ h
  obtain ⟨_, _, h⟩ := bind_eq_ok _ _ _ h
  obtain ⟨_, _, h⟩ := bind_eq_ok _ _ _ h
  obtain ⟨b', hb, h⟩ := bind_eq_ok _ _ _ h
  simp only [pure, Except.pure, Except.ok.injEq] at h
  subst h
  exact ⟨vec_set_eq_ok _ _ _ _ ha, vec_set_eq_ok _ _ _ _ hb⟩

theorem encode_dimension_lengths (s : VariantArraySchema) (i : Nat)
    (st st' : List String × List Int)
    (h : VariantStorageManager.encode_dimension s i st = .ok st') :
    st'.1.length = st.1.length := by
  obtain ⟨a, b⟩ := st
  unfold VariantStorageManager.encode_dimension at h
  obtain ⟨_, _, h⟩ := bind_eq_ok _ _ _ h
  obtain ⟨a', ha, h⟩ := bind_eq_ok _ _ _ h
  obtain ⟨_, _, h⟩ := bind_eq_ok _ _ _ h
  obtain ⟨_, _, h⟩ := bind_eq_ok _ _ _ h
  obtain ⟨_, _, h⟩ := bind_eq_ok _ _ _ h
  simp only [pure, Except.pure, Except.ok.injEq] at h
  subst h
  exact vec_set_eq_ok _ _ _ _ ha

theorem define_array_request_dim_num (U : VariantFieldTypeUtil) (sm : VariantStorageManager)
    (s : VariantArraySchema) (t : TileDB_ArraySchema)
    (h : VariantStorageManager.define_array_request U sm s = .ok t) :
    t.dim_num_ = s.m_dim_names.length := by
  unfold VariantStorageManager.define_array_request at h
  obtain ⟨⟨a, b, c, d⟩, _, h⟩ := bind_eq_ok _ _ _ h
  obtain ⟨_, _, h⟩ := bind_eq_ok _ _ _ h
  obtain ⟨_, _, h⟩ := bind_eq_ok _ _ _ h
  obtain ⟨_, _, h⟩ := bind_eq_ok _ _ _ h
  obtain ⟨⟨dn, dd⟩, hloop, h⟩ := bind_eq_ok _ _ _ h
  simp only [pure, Except.pure, Except.ok.injEq] at h
  subst h
  have := for_loop_preserves (VariantStorageManager.encode_dimension s)
    (fun st => st.1.length = s.m_dim_names.length)
    (fun i st st' hs hb => (encode_dimension_lengths s i st st' hb).trans hs)
    _ _ _ _ (by simp [VariantArraySchema.dim_names]) hloop
  simpa [VariantStorageManager.tiledb_array_set_schema] using this

theorem decode_schema_dim_domains (U : VariantFieldTypeUtil) (array_name : String)
    (t : TileDB_ArraySchema) (s : VariantArraySchema)
    (h : VariantStorageManager.decode_schema U array_name t = .ok s) :
    s.m_dim_domains.length = 2 * t.dim_num_ ∧ s.m_dim_names.length = t.dim_num_ := by
  unfold VariantStorageManager.decode_schema at h
  obtain ⟨⟨a, b, c, d⟩, _, h⟩ := bind_eq_ok _ _ _ h
  obtain ⟨_, _, h⟩ := bind_eq_ok _ _ _ h
  obtain ⟨_, _, h⟩ := bind_eq_ok _ _ _ h
  obtain ⟨_, _, h⟩ := bind_eq_ok _ _ _ h
  obtain ⟨⟨dn, dd⟩, hloop, h⟩ := bind_eq_ok _ _ _ h
  simp only [pure, Except.pure, Except.ok.injEq] at h
  subst h
  have := for_loop_preserves (VariantStorageManager.decode_dimension t)
    (fun st => st.1.length = t.dim_num_ ∧ st.2.length = 2 * t.dim_num_)
    (fun i st st' hs hb =>
      ⟨(decode_dimension_lengths t i st st' hb).1.trans hs.1,
        (decode_dimension_lengths t i st st' hb).2.trans hs.2⟩)
    _ _ _ _ (by simp) hloop
  exact ⟨this.2, this.1⟩

/-- Whenever the schema `get_array_schema` decodes from the engine schema `define_array`
builds is obtained, it has twice as many domains as the defined schema has dimensions. -/
theorem round_trip_dim_domains_length (U : VariantFieldTypeUtil) (sm : VariantStorageManager)
    (s decoded : VariantArraySchema)
    (h : VariantStorageManager.schema_round_trip U sm s = .ok decoded) :
    decoded.m_dim_domains.length = 2 * s.m_dim_names.length
    ∧ decoded.m_dim_names.length = s.m_dim_names.length := by
  unfold VariantStorageManager.schema_round_trip at h
  cases hd : VariantStorageManager.define_array_request U sm s with
  | error e => rw [hd] at h; cases h
  | ok t =>
    rw [hd] at h
    have h1 := define_array_request_dim_num U sm s t hd
    have h2 := decode_schema_dim_domains U s.array_name t decoded h
    rw [h1] at h2
    exact h2

theorem coords_slot_eq (s : VariantArraySchema) :
    coords_slot s = fixed_length_count s + 2 * variable_length_count s := by
  have h := List.length_eq_countP_add_countP AttributeInfo.is_variable_length
    s.m_attributes_vector
  have h2 : (fun a : AttributeInfo => decide ¬(a.is_variable_length = true))
      = fun a : AttributeInfo => !a.is_variable_length := by
    funext a; cases a.is_variable_length <;> rfl
  rw [h2] at h
  unfold coords_slot first_slot fixed_length_count variable_length_count
    VariantArraySchema.attribute_num
  rw [List.take_length]
  omega

theorem collect_length (s : VariantArraySchema) (buffer_size : Nat) (ids : List Int) :
    ∀ (acc res : List String × List (List Nat)),
      VariantArrayCellIterator.collect s buffer_size ids acc = .ok res →
      res.2.length = acc.2.length + (ids.map (slots_of_attribute s)).sum := by
  induction ids with
  | nil =>
    intro acc res h
    simp only [VariantArrayCellIterator.collect, Except.ok.injEq] at h
    subst h; simp
  | cons id ids ih =>
    rintro ⟨names, bufs⟩ res h
    simp only [VariantArrayCellIterator.collect] at h
    split at h
    · rename_i nm v hn hv
      have := ih _ _ h
      cases v <;> simp [slots_of_attribute, hv] at this ⊢ <;> omega
    · cases h

theorem collect_returns (s : VariantArraySchema) (buffer_size : Nat) (ids : List Int)
    (hids : ∀ id ∈ ids, (s.attribute_at id).isSome = true) :
    ∀ acc, ∃ res, VariantArrayCellIterator.collect s buffer_size ids acc = .ok res := by
  induction ids with
  | nil => intro acc; exact ⟨acc, rfl⟩
  | cons id ids ih =>
    rintro ⟨names, bufs⟩
    have h1 := hids id (List.mem_cons_self _ _)
    obtain ⟨a, ha⟩ := Option.isSome_iff_exists.mp h1
    simp only [VariantArrayCellIterator.collect, VariantArraySchema.attribute_name,
      VariantArraySchema.is_variable_length_field, ha, Option.map_some']
    exact ih (fun id hid => hids id (List.mem_cons_of_mem _ hid)) _

/-- C1: in write mode the constructor of `VariantArrayInfo` builds exactly
`a + 2b + 1` buffers (`a` fixed-length, `b` variable-length attributes), whatever
`buffer_size` is, and the pointer and size tables have that length; the constructor of
`VariantArrayCellIterator`, whenever it returns an iterator, has built one buffer per
listed fixed-length attribute, two per listed variable-length attribute and one for the
coordinates, with tables of that length; and it does return one when every listed id
is an attribute of the schema and the engine accepts the iterator. -/
theorem C1_buffer_count :
    (∀ (idx mode : Int) (name : String) (s : VariantArraySchema) (arr : Option Nat)
        (buffer_size : Nat),
        mode = TILEDB_ARRAY_WRITE ∨ mode = TILEDB_ARRAY_WRITE_UNSORTED →
        (VariantArrayInfo.create idx mode name s arr buffer_size).m_buffers.length
            = fixed_length_count s + 2 * variable_length_count s + 1
          ∧ (VariantArrayInfo.create idx mode name s arr buffer_size).m_buffer_pointers.length
            = fixed_length_count s + 2 * variable_length_count s + 1
          ∧ (VariantArrayInfo.create idx mode name s arr buffer_size).m_buffer_sizes.length
            = fixed_length_count s + 2 * variable_length_count s + 1)
    ∧ (∀ (E : TileDB) (s : VariantArraySchema) (path : String) (range ids : List Int)
        (buffer_size : Nat) (it : VariantArrayCellIterator),
        (VariantArrayCellIterator.create E s path range ids buffer_size).1 = .ok it →
        it.m_buffers.length = (ids.map (slots_of_attribute s)).sum + 1
          ∧ it.m_buffer_pointers.length = (ids.map (slots_of_attribute s)).sum + 1
          ∧ it.m_buffer_sizes.length = (ids.map (slots_of_attribute s)).sum + 1)
    ∧ (∀ (E : TileDB) (s : VariantArraySchema) (path : String) (range ids : List Int)
        (buffer_size : Nat),
        (∀ id ∈ ids, (s.attribute_at id).isSome = true) →
        (∀ names ptrs sizes,
          E.tiledb_array_iterator_init path range names ptrs sizes = TILEDB_OK) →
        ∃ it, (VariantArrayCellIterator.create E s path range ids buffer_size).1 = .ok it) := by
  refine ⟨?_, ?_, ?_⟩
  · intro idx mode name s arr buffer_size hmode
    rw [create_write idx mode name s arr buffer_size hmode, ← coords_slot_eq]
    simp
  · intro E s path range ids buffer_size it h
    unfold VariantArrayCellIterator.create at h
    split at h
    · cases h
    · rename_i names bufs hc
      have hl := collect_length s buffer_size ids _ _ hc
      simp only at h
      split at h
      · cases h
      · simp only [Except.ok.injEq] at h
        subst h
        simp at hl ⊢
        exact hl
  · intro E s path range ids buffer_size hids hE
    obtain ⟨⟨names, bufs⟩, hc⟩ := collect_returns s buffer_size ids hids ([], [])
    simp [VariantArrayCellIterator.create, hc, hE, VERIFY_OR_THROW]

theorem reachable_layout (ndebug : Bool) (E : TileDB) (idx mode : Int) (name : String) (s : VariantArraySchema)
    (arr : Option Nat) (buffer_size : Nat) (events : List VariantArrayInfo.Event) (h : VariantArrayInfo)
    (hmode : mode = TILEDB_ARRAY_WRITE ∨ mode = TILEDB_ARRAY_WRITE_UNSORTED)
    (hh : VariantArrayInfo.replay ndebug E
      (VariantArrayInfo.create idx mode name s arr buffer_size) events = .ok h) :
    WriteLayout h buffer_size ∧ h.m_schema = s := by
  have h0 := create_layout idx mode name s arr buffer_size hmode
  have := replay_layout ndebug E buffer_size events _ h h0 hh
  refine ⟨this.1, this.2.trans ?_⟩
  rw [create_write idx mode name s arr buffer_size hmode]

/-- C3: on a handle constructed in write mode (then used for any number of writes and
relocated any number of times), whenever `write_cell` returns, for every
variable-length attribute the slot before its value slot still points at the handle's
own offsets buffer, that buffer starts with the bytes of the single offset value `0`,
and the used size of the slot is `sizeof(size_t)`; and `write_cell` does return when
the buffers can hold an offset word and the coordinates and the record contains the
coordinates. -/
theorem C3_offsets_slot (ndebug : Bool) (E : TileDB) (idx mode : Int) (name : String) (s : VariantArraySchema)
    (arr : Option Nat) (buffer_size : Nat) (events : List VariantArrayInfo.Event) (h : VariantArrayInfo)
    (cell : InputCell)
    (hmode : mode = TILEDB_ARRAY_WRITE ∨ mode = TILEDB_ARRAY_WRITE_UNSORTED)
    (hh : VariantArrayInfo.replay ndebug E
      (VariantArrayInfo.create idx mode name s arr buffer_size) events = .ok h) :
    (sizeof_size_t ≤ buffer_size → s.dim_size_in_bytes ≤ buffer_size →
      s.dim_size_in_bytes ≤ cell.bytes.length → ∃ r, h.write_cell ndebug E cell = .ok r) ∧
    (∀ r, h.write_cell ndebug E cell = .ok r →
      ∀ i : Nat, s.is_variable_length_field i = some true →
        0 < value_slot s i
        ∧ r.1.m_buffer_pointers[value_slot s i - 1]? = some (.buffer (value_slot s i - 1))
        ∧ (∃ b, r.1.m_buffers[value_slot s i - 1]? = some b
            ∧ b.take sizeof_size_t = size_t_zero_bytes)
        ∧ r.1.m_buffer_sizes[value_slot s i - 1]? = some sizeof_size_t) := by
  obtain ⟨hl, hs⟩ := reachable_layout ndebug E idx mode name s arr buffer_size events h hmode hh
  subst hs
  have hw := write_cell_spec ndebug E h buffer_size cell hl
  refine ⟨hw.1, ?_⟩
  intro r hr i hvar
  have hc := hw.2.1 r hr
  have hi := lt_of_is_variable_length_field _ _ _ hvar
  have hvs := value_slot_eq h.m_schema i hi
  rw [if_pos hvar] at hvs
  obtain ⟨h1, h2, h3, h4⟩ := hc.offsets i hvar
  have hsub : value_slot h.m_schema i - 1 = first_slot h.m_schema i := by omega
  rw [hsub]
  refine ⟨by omega, h1, ⟨_, h3, ?_⟩, h2⟩
  simp only [new_buffer, size_t_zero_bytes, List.take_replicate]
  congr 1
  exact Nat.min_eq_left h4

/-- C9: on a handle constructed in write mode (then used for any number of writes and
relocated any number of times), whenever `write_cell` returns, the value slot of every
attribute `i`, at index `i` plus the number of variable-length attributes of index at most `i`, holds the
address the cell builder reports for field `i` of the record and has that field's
byte length as used size; value slots follow the order of the attributes; and
`write_cell` does return when the buffers can hold an offset word and the coordinates
and the record contains the coordinates. -/
theorem C9_value_slots (ndebug : Bool) (E : TileDB) (idx mode : Int) (name : String) (s : VariantArraySchema)
    (arr : Option Nat) (buffer_size : Nat) (events : List VariantArrayInfo.Event) (h : VariantArrayInfo)
    (cell : InputCell)
    (hmode : mode = TILEDB_ARRAY_WRITE ∨ mode = TILEDB_ARRAY_WRITE_UNSORTED)
    (hh : VariantArrayInfo.replay ndebug E
      (VariantArrayInfo.create idx mode name s arr buffer_size) events = .ok h) :
    (sizeof_size_t ≤ buffer_size → s.dim_size_in_bytes ≤ buffer_size →
      s.dim_size_in_bytes ≤ cell.bytes.length → ∃ r, h.write_cell ndebug E cell = .ok r) ∧
    (∀ r, h.write_cell ndebug E cell = .ok r →
      ∀ i, i < s.attribute_num →
        r.1.m_buffer_pointers[value_slot s i]?
            = some (.caller (cell.get_field_ptr_for_query_idx i))
        ∧ r.1.m_buffer_sizes[value_slot s i]? = some (cell.get_field_size_in_bytes i)) ∧
    (∀ i j, i < j → j < s.attribute_num → value_slot s i < value_slot s j) := by
  obtain ⟨hl, hs⟩ := reachable_layout ndebug E idx mode name s arr buffer_size events h hmode hh
  subst hs
  have hw := write_cell_spec ndebug E h buffer_size cell hl
  refine ⟨hw.1, fun r hr i hi => (hw.2.1 r hr).values i hi, ?_⟩
  intro i j hij hj
  exact Nat.lt_of_lt_of_le (value_slot_lt_first_slot h.m_schema i j hij (Nat.le_of_lt hj))
    (first_slot_le_value_slot h.m_schema j hj)

/-- C10: on a handle constructed in write mode whose schema is the one it was
constructed with (then used for any number of writes and relocated any number of
times), the layout checks of `write_cell` never fail: after any number `i` of completed iterations of the staging
loop the cursor is the first slot of attribute `i`, and it and the value slot of
attribute `i` (the index written after an offsets slot) are below the length of the
pointer table; after the loop the cursor is `m_buffers.size()-1`; `write_cell` never
ends in a failed assertion; and it returns when the buffers can hold an offset word and
the coordinates and the record contains the coordinates. -/
theorem C10_layout_checks (ndebug : Bool) (E : TileDB) (idx mode : Int) (name : String)
    (s : VariantArraySchema) (arr : Option Nat) (buffer_size : Nat) (events : List VariantArrayInfo.Event)
    (h : VariantArrayInfo) (cell : InputCell)
    (hmode : mode = TILEDB_ARRAY_WRITE ∨ mode = TILEDB_ARRAY_WRITE_UNSORTED)
    (hh : VariantArrayInfo.replay ndebug E
      (VariantArrayInfo.create idx mode name s arr buffer_size) events = .ok h) :
    (∀ (i : Nat) (st : Nat × VariantArrayInfo), i ≤ s.attribute_num →
      for_loop (VariantArrayInfo.write_cell_attribute ndebug cell) i 0 (0, h) = .ok st →
      st.1 = first_slot s i
      ∧ st.2.m_buffer_pointers.length = h.m_buffer_pointers.length
      ∧ (i < s.attribute_num →
          st.1 < st.2.m_buffer_pointers.length
          ∧ value_slot s i < st.2.m_buffer_pointers.length)) ∧
    (∀ r, h.stage_cell ndebug cell = .ok r → r.1 = size_t_sub r.2.m_buffers.length 1) ∧
    h.write_cell ndebug E cell ≠ .error .assertion_failed ∧
    (sizeof_size_t ≤ buffer_size → s.dim_size_in_bytes ≤ buffer_size →
      s.dim_size_in_bytes ≤ cell.bytes.length → ∃ r, h.write_cell ndebug E cell = .ok r) := by
  obtain ⟨hl, hs⟩ := reachable_layout ndebug E idx mode name s arr buffer_size events h hmode hh
  subst hs
  have hw := write_cell_spec ndebug E h buffer_size cell hl
  refine ⟨?_, ?_, ?_, hw.1⟩
  · intro i st hi hst
    have hloop := (for_loop_staged ndebug h buffer_size cell hl i 0 (0, h) (by omega)
      (staged_init h buffer_size cell)).2.1 st hst
    rw [Nat.zero_add] at hloop
    refine ⟨hloop.cursor, hloop.pointers_length, ?_⟩
    intro hlt
    have h1 := value_slot_lt_first_slot h.m_schema i _ hlt (Nat.le_refl _)
    have h2 := first_slot_le_value_slot h.m_schema i hlt
    have h3 := hl.pointers_length
    have h4 := hloop.pointers_length
    have h5 := hloop.cursor
    unfold coords_slot at h3
    omega
  · intro r hr
    have := (stage_cell_spec ndebug h buffer_size cell hl).2.1 r hr
    rw [this.1, this.2.layout.buffers_length, this.2.schema, size_t_sub_succ_one]
  · intro hbad
    have := hw.2.2 _ hbad
    cases this

/-- C8, as the code has it: on a handle constructed in write mode (then used for any
number of writes and relocated any number of times), whenever `write_cell` returns,
the last slot points at the handle's own coordinates buffer, that buffer starts with a copy of the first
`dim_size_in_bytes` bytes of the input record (the bytes at `ptr`), and the used size
of the slot is `dim_size_in_bytes`; and `write_cell` does return when the buffers can
hold an offset word and the coordinates and the record has that many bytes. -/
theorem C8_coordinates_from_head (ndebug : Bool) (E : TileDB) (idx mode : Int) (name : String)
    (s : VariantArraySchema) (arr : Option Nat) (buffer_size : Nat) (events : List VariantArrayInfo.Event)
    (h : VariantArrayInfo) (cell : InputCell)
    (hmode : mode = TILEDB_ARRAY_WRITE ∨ mode = TILEDB_ARRAY_WRITE_UNSORTED)
    (hh : VariantArrayInfo.replay ndebug E
      (VariantArrayInfo.create idx mode name s arr buffer_size) events = .ok h) :
    (sizeof_size_t ≤ buffer_size → s.dim_size_in_bytes ≤ buffer_size →
      s.dim_size_in_bytes ≤ cell.bytes.length → ∃ r, h.write_cell ndebug E cell = .ok r) ∧
    (∀ r, h.write_cell ndebug E cell = .ok r →
      r.1.m_buffer_pointers[r.1.m_buffers.length - 1]?
          = some (.buffer (r.1.m_buffers.length - 1))
      ∧ (∃ b, r.1.m_buffers[r.1.m_buffers.length - 1]? = some b
          ∧ b.take s.dim_size_in_bytes = cell.bytes.take s.dim_size_in_bytes
          ∧ (cell.bytes.take s.dim_size_in_bytes).length = s.dim_size_in_bytes)
      ∧ r.1.m_buffer_sizes[r.1.m_buffers.length - 1]? = some s.dim_size_in_bytes) := by
  obtain ⟨hl, hs⟩ := reachable_layout ndebug E idx mode name s arr buffer_size events h hmode hh
  subst hs
  have hw := write_cell_spec ndebug E h buffer_size cell hl
  refine ⟨hw.1, ?_⟩
  intro r hr
  have hc := hw.2.1 r hr
  have hlen : r.1.m_buffers.length - 1 = coords_slot h.m_schema := by
    rw [hc.layout.buffers_length, hc.schema]; rfl
  rw [hlen]
  obtain ⟨h1, h2, ⟨b, hb, hbt⟩, h4, _⟩ := hc.coords
  refine ⟨h1, ⟨b, hb, hbt, ?_⟩, h2⟩
  rw [List.length_take]
  exact Nat.min_eq_left h4

/-- C4: for a descriptor `ad` in the range of `int` and a registry a vector can hold,
each of `close_array(ad)`, `get_array_schema(ad, ...)` and `begin(ad, ...)` raises the
invalid-handle exception exactly when `ad` is not a valid descriptor (negative, not
below the number of registered handles, or naming a slot with an empty array name);
when `ad` is not valid, the manager is left unchanged and no engine call is made. -/
theorem C4_invalid_descriptor (C : Context) (sm : VariantStorageManager) (ad : Int)
    (out : VariantArraySchema) (range ids : List Int)
    (had : -2 ^ 31 ≤ ad ∧ ad < 2 ^ 31)
    (hsize : sm.m_open_arrays_info_vector.length < 2 ^ 63) :
    ((sm.close_array ad).result = .error InvalidHandleError ↔ ¬ valid_descriptor sm ad)
    ∧ ((sm.get_array_schema C ad out).result = .error InvalidHandleError
        ↔ ¬ valid_descriptor sm ad)
    ∧ ((sm.begin C ad range ids).result = .error InvalidHandleError ↔ ¬ valid_descriptor sm ad)
    ∧ (¬ valid_descriptor sm ad →
        (sm.close_array ad).manager = sm ∧ (sm.close_array ad).calls = []
        ∧ (sm.get_array_schema C ad out).manager = sm ∧ (sm.get_array_schema C ad out).calls = []
        ∧ (sm.begin C ad range ids).manager = sm ∧ (sm.begin C ad range ids).calls = []) := by
  have hiff := descriptor_ok_iff sm ad had hsize
  by_cases hv : valid_descriptor sm ad
  · have hok : sm.descriptor_ok ad = true := hiff.mpr hv
    obtain ⟨a, ha⟩ := descriptor_ok_get sm ad hok
    refine ⟨?_, ?_, ?_, fun h => absurd hv h⟩
    · simp only [VariantStorageManager.close_array, VERIFY_OR_THROW, hok, if_true,
        vec_get_eq _ _ _ ha, hv, not_true_eq_false, iff_false]
      intro h; cases h
    · simp only [hv, not_true_eq_false, iff_false]
      intro h
      have hn := notInvalid_get_array_schema_by_name C sm a.get_array_name out
      simp only [VariantStorageManager.get_array_schema, VERIFY_OR_THROW, hok, if_true,
        vec_get_eq _ _ _ ha] at h
      split at h
      · rename_i e calls heq
        simp only [Except.error.injEq] at h
        subst h
        exact hn _ (by rw [heq]) rfl
      · split at h <;> cases h
    · simp only [hv, not_true_eq_false, iff_false]
      intro h
      simp only [VariantStorageManager.begin, VERIFY_OR_THROW, hok, if_true,
        vec_get_eq _ _ _ ha] at h
      exact notInvalid_iterator_create _ _ _ _ _ _ _ h rfl
  · have hok : sm.descriptor_ok ad = false := by
      cases h : sm.descriptor_ok ad
      · rfl
      · exact absurd (hiff.mp h) hv
    simp [VariantStorageManager.close_array, VariantStorageManager.get_array_schema,
      VariantStorageManager.begin, VERIFY_OR_THROW, hok, hv, InvalidHandleError]

/-- In a build with assertions enabled, `write_cell_sorted` on a descriptor that is not
valid ends in a failed assertion, with the manager unchanged and no engine call. -/
theorem write_cell_sorted_invalid_descriptor (C : Context) (sm : VariantStorageManager)
    (ad : Int) (cell : InputCell) (hdebug : C.NDEBUG = false)
    (had : -2 ^ 31 ≤ ad ∧ ad < 2 ^ 31)
    (hsize : sm.m_open_arrays_info_vector.length < 2 ^ 63)
    (hinvalid : ¬ valid_descriptor sm ad) :
    (sm.write_cell_sorted C ad cell).result = .error .assertion_failed
    ∧ (sm.write_cell_sorted C ad cell).manager = sm
    ∧ (sm.write_cell_sorted C ad cell).calls = [] := by
  have hok : sm.descriptor_ok ad = false := by
    cases h : sm.descriptor_ok ad
    · rfl
    · exact absurd ((descriptor_ok_iff sm ad had hsize).mp h) hinvalid
  simp [VariantStorageManager.write_cell_sorted, assert, hok, hdebug]

/-- C6, as the code has it: for a registry of fewer than `2^31` handles, `open_array`
raises the unknown-mode exception without calling the engine when the mode is neither
`"r"` nor `"w"`; otherwise, when the engine cannot open the array it returns `-1` and
leaves the registry unchanged; otherwise it fetches the schema of the array, and when
that fails (an unmapped type in the stored schema) the failure leaves `open_array`
with the registry unchanged, and when it does not, `open_array` returns the number of
handles registered before the call and appends one handle carrying that index, the
resolved mode and the array name, the earlier slots being unchanged. -/
theorem C6_open_array (C : Context) (sm : VariantStorageManager) (array_name mode : String)
    (hsize : sm.m_open_arrays_info_vector.length < 2 ^ 31) :
    (mode ≠ "r" → mode ≠ "w" →
      (sm.open_array C array_name mode).result = .error UnknownModeError
      ∧ (sm.open_array C array_name mode).manager = sm
      ∧ (sm.open_array C array_name mode).calls = [])
    ∧ (∀ mode_int : Int,
        (mode = "r" ∧ mode_int = TILEDB_ARRAY_READ) ∨ (mode = "w" ∧ mode_int = TILEDB_ARRAY_WRITE) →
        ((C.engine.tiledb_array_init (sm.array_path array_name) mode_int).1 ≠ TILEDB_OK →
          (sm.open_array C array_name mode).result = .ok (-1)
          ∧ (sm.open_array C array_name mode).manager = sm)
        ∧ ((C.engine.tiledb_array_init (sm.array_path array_name) mode_int).1 = TILEDB_OK →
          (∀ e, (sm.get_array_schema_by_name C array_name .empty).1 = .error e →
            (sm.open_array C array_name mode).result = .error e
            ∧ (sm.open_array C array_name mode).manager = sm)
          ∧ (∀ status schema,
              (sm.get_array_schema_by_name C array_name .empty).1 = .ok (status, schema) →
              (sm.open_array C array_name mode).result
                  = .ok (sm.m_open_arrays_info_vector.length : Int)
              ∧ ∃ h : VariantArrayInfo,
                  (sm.open_array C array_name mode).manager
                      = { sm with
                          m_open_arrays_info_vector := sm.m_open_arrays_info_vector ++ [h] }
                  ∧ h.m_idx = (sm.m_open_arrays_info_vector.length : Int)
                  ∧ h.m_mode = mode_int ∧ h.m_name = array_name))) := by
  have hidx : to_int (sm.m_open_arrays_info_vector.length : Int)
      = (sm.m_open_arrays_info_vector.length : Int) := by
    unfold to_int; omega
  refine ⟨?_, ?_⟩
  · intro hr hw
    simp [VariantStorageManager.open_array, VariantStorageManager.m_mode_string_to_int, hr, hw,
      UnknownModeError]
  · intro mode_int hmode
    have hlookup : VariantStorageManager.m_mode_string_to_int mode = some mode_int := by
      rcases hmode with ⟨h1, h2⟩ | ⟨h1, h2⟩
      · subst h1 h2; rfl
      · subst h1 h2; rfl
    cases hinit : C.engine.tiledb_array_init (sm.array_path array_name) mode_int with
    | mk status tiledb_array =>
      refine ⟨?_, ?_⟩
      · intro hne
        have hne' : (status == TILEDB_OK) = false := by simpa using hne
        simp [VariantStorageManager.open_array, hlookup, hinit, hne']
      · intro heq
        have heq' : (status == TILEDB_OK) = true := by simpa using heq
        refine ⟨?_, ?_⟩
        · intro e he
          cases hg : sm.get_array_schema_by_name C array_name .empty with
          | mk r calls =>
            rw [hg] at he
            simp only at he
            subst he
            simp [VariantStorageManager.open_array, hlookup, hinit, heq', hg]
        · intro st schema he
          cases hg : sm.get_array_schema_by_name C array_name .empty with
          | mk r calls =>
            rw [hg] at he
            simp only at he
            subst he
            simp only [VariantStorageManager.open_array, hlookup, hinit, heq', hg, if_true, hidx]
            refine ⟨trivial, _, rfl, ?_, ?_, ?_⟩
            · unfold VariantArrayInfo.create; split <;> rfl
            · unfold VariantArrayInfo.create; split <;> rfl
            · unfold VariantArrayInfo.create; split <;> rfl

/-- The outcome of `write_cell` does not depend on what the engine answers. -/
theorem write_cell_ignores_engine (ndebug : Bool) (E E' : TileDB) (h : VariantArrayInfo)
    (cell : InputCell) : h.write_cell ndebug E cell = h.write_cell ndebug E' cell := by
  rw [write_cell_eq, write_cell_eq]

/-- C7: with an engine whose buffered write returns the error status for every call,
`write_cell` on the example handle and record still returns normally, after issuing
that write, and so does `write_cell_sorted`: the status is not looked at. -/
theorem C7_write_status_ignored :
    (∀ a p s, failing_write_engine.tiledb_array_write a p s = TILEDB_ERR)
    ∧ TILEDB_ERR ≠ TILEDB_OK
    ∧ example_handle.write_cell false failing_write_engine example_cell
        = .ok (example_handle_written,
            [.array_write (some 1) [.caller 4096, .buffer 1, .caller 4100, .buffer 3]
              [4, 8, 2, 16]])
    ∧ (example_manager.write_cell_sorted
          { engine := failing_write_engine, util := example_util, default_buffer_size := 32,
            NDEBUG := false }
          0 example_cell).result = .ok () :=
  ⟨fun _ _ _ => rfl, by decide, rfl, rfl⟩

/-- C2: for the schema of the example (two dimensions of domain `[0,100]`), whose types
the example type mapping maps back and forth, the schema `get_array_schema` decodes
from the engine schema `define_array` builds has the same attributes and dimension
names but four domains, the two of the schema followed by two pairs `(0, 0)`. -/
theorem C2_round_trip_dim_domains :
    (∀ a ∈ example_schema.m_attributes_vector,
      (example_util.get_tiledb_type_for_variant_field_type a.m_type).bind
        example_util.get_variant_field_type_for_tiledb_type = some a.m_type)
    ∧ VariantStorageManager.define_array_request example_util example_manager example_schema
        = .ok example_engine_schema
    ∧ ∃ decoded,
        (example_manager.get_array_schema_by_name
          { engine := engine_with_vars, util := example_util, default_buffer_size := 32,
            NDEBUG := false }
          "vars" .empty).1 = .ok (TILEDB_OK, decoded)
        ∧ decoded.m_attributes_vector = example_schema.m_attributes_vector
        ∧ decoded.m_dim_names = example_schema.m_dim_names
        ∧ decoded.m_dim_domains = [(0, 100), (0, 100), (0, 0), (0, 0)]
        ∧ decoded.m_dim_domains ≠ example_schema.m_dim_domains :=
  ⟨by decide, rfl, _, rfl, rfl, rfl, rfl, by decide⟩

/-- C8 fails as stated: the example record is the field bytes followed by the
coordinates `(3, 7)`; after `write_cell` the coordinates buffer starts with the first
16 bytes of the record, which are not its last 16 bytes. -/
theorem C8_counterexample :
    example_handle.write_cell false example_engine example_cell
      = .ok (example_handle_written,
          [.array_write (some 1) [.caller 4096, .buffer 1, .caller 4100, .buffer 3]
            [4, 8, 2, 16]])
    ∧ example_schema.dim_size_in_bytes = 16
    ∧ example_handle_written.m_buffers[example_handle_written.m_buffers.length - 1]?
        = some ([5, 0, 0, 0, 65, 66, 3, 0, 0, 0, 0, 0, 0, 0, 7, 0] ++ List.replicate 16 0)
    ∧ example_cell.bytes.take 16 = [5, 0, 0, 0, 65, 66, 3, 0, 0, 0, 0, 0, 0, 0, 7, 0]
    ∧ example_cell.bytes.drop (example_cell.bytes.length - 16)
        = [3, 0, 0, 0, 0, 0, 0, 0, 7, 0, 0, 0, 0, 0, 0, 0]
    ∧ ([5, 0, 0, 0, 65, 66, 3, 0, 0, 0, 0, 0, 0, 0, 7, 0] ++ List.replicate 16 0).take 16
        ≠ example_cell.bytes.drop (example_cell.bytes.length - 16) :=
  ⟨rfl, rfl, rfl, rfl, rfl, by decide⟩

/-- C5: after `close_array(0)` has closed the only slot of the example registry,
`write_cell_sorted(0, ptr)` does not raise the invalid-handle exception that
`close_array(0)` raises on the same registry. In a build with assertions it ends in a
failed assertion; in a build that defines `NDEBUG` it returns, having staged the record
in the closed handle and issued the engine write on the null engine handle. For the
out-of-range descriptor `5` it ends in a failed assertion, or reads outside the vector. -/
theorem C5_write_cell_sorted_asserts :
    (example_manager.close_array 0).result = .ok ()
    ∧ ¬ valid_descriptor (example_manager.close_array 0).manager 0
    ∧ ((example_manager.close_array 0).manager.close_array 0).result
        = .error InvalidHandleError
    ∧ ((example_manager.close_array 0).manager.write_cell_sorted example_context 0
          example_cell).result = .error .assertion_failed
    ∧ Failure.assertion_failed ≠ InvalidHandleError
    ∧ ((example_manager.close_array 0).manager.write_cell_sorted release_context 0
          example_cell).result = .ok ()
    ∧ ((example_manager.close_array 0).manager.write_cell_sorted release_context 0
          example_cell).calls
        = [.array_write none [.caller 4096, .buffer 1, .caller 4100, .buffer 3] [4, 8, 2, 16]]
    ∧ (example_manager.write_cell_sorted example_context 5 example_cell).result
        = .error .assertion_failed
    ∧ (example_manager.write_cell_sorted release_context 5 example_cell).result
        = .error .undefined_behaviour :=
  ⟨rfl, fun h => absurd h.2.2 (by decide), rfl, rfl, by decide, rfl, rfl, rfl, rfl⟩

/-- C6 fails as stated: the engine opens the array `ws/foreign`, whose stored schema
has an attribute of an engine type the type mapping does not know; `open_array` neither
raises the unknown-mode error, nor returns `-1`, nor returns a descriptor: the
unmapped-type failure leaves it, and no handle is registered. -/
theorem C6_counterexample :
    (engine_with_foreign_schema.tiledb_array_init "ws/foreign" TILEDB_ARRAY_READ).1 = TILEDB_OK
    ∧ (example_manager.open_array
          { engine := engine_with_foreign_schema, util := example_util,
            default_buffer_size := 32, NDEBUG := false } "foreign" "r").result
        = .error (.thrown .unmapped_type)
    ∧ (example_manager.open_array
          { engine := engine_with_foreign_schema, util := example_util,
            default_buffer_size := 32, NDEBUG := false } "foreign" "r").manager = example_manager :=
  ⟨rfl, rfl, rfl⟩

/-- C1 on the example: the schema has one fixed-length and one variable-length
attribute, its write-mode handle has `1 + 2 * 1 + 1` buffers, and an iterator over the
attributes `1, 0` has `2 + 1 + 1` buffers. -/
theorem C1_buffer_count_witness :
    (TILEDB_ARRAY_WRITE = TILEDB_ARRAY_WRITE ∨ TILEDB_ARRAY_WRITE = TILEDB_ARRAY_WRITE_UNSORTED)
    ∧ fixed_length_count example_schema = 1 ∧ variable_length_count example_schema = 1
    ∧ example_handle.m_buffers.length = 1 + 2 * 1 + 1
    ∧ ∃ it, (VariantArrayCellIterator.create example_engine example_schema "ws/vars" []
          [1, 0] 32).1 = .ok it
        ∧ it.m_buffers.length = 2 + 1 + 1 := by
  obtain ⟨it, hit⟩ := C1_buffer_count.2.2 example_engine example_schema "ws/vars" [] [1, 0] 32
    (by decide) (fun _ _ _ => rfl)
  exact ⟨Or.inl rfl, rfl, rfl,
    (C1_buffer_count.1 0 TILEDB_ARRAY_WRITE "vars" example_schema (some 1) 32 (Or.inl rfl)).1,
    it, hit,
    (C1_buffer_count.2.1 example_engine example_schema "ws/vars" [] [1, 0] 32 it hit).1⟩

/-- C3 on the example: the handle has already written one record and has been
relocated; writing the record
again returns, and the offsets slot of `tags` points at its own buffer with used size
`sizeof(size_t)`. -/
theorem C3_offsets_slot_witness :
    (TILEDB_ARRAY_WRITE = TILEDB_ARRAY_WRITE ∨ TILEDB_ARRAY_WRITE = TILEDB_ARRAY_WRITE_UNSORTED)
    ∧ VariantArrayInfo.replay false example_engine
        (VariantArrayInfo.create 0 TILEDB_ARRAY_WRITE "vars" example_schema (some 1) 32)
        [.write example_cell, .moved] = .ok example_handle_moved
    ∧ example_schema.is_variable_length_field 1 = some true
    ∧ ∃ r, example_handle_moved.write_cell false example_engine example_cell = .ok r
        ∧ r.1.m_buffer_pointers[value_slot example_schema 1 - 1]?
            = some (.buffer (value_slot example_schema 1 - 1))
        ∧ (∃ b, r.1.m_buffers[value_slot example_schema 1 - 1]? = some b
            ∧ b.take sizeof_size_t = size_t_zero_bytes)
        ∧ r.1.m_buffer_sizes[value_slot example_schema 1 - 1]? = some sizeof_size_t := by
  have h := C3_offsets_slot false example_engine 0 TILEDB_ARRAY_WRITE "vars" example_schema (some 1)
    32 [.write example_cell, .moved] example_handle_moved example_cell (Or.inl rfl) rfl
  obtain ⟨r, hr⟩ := h.1 (by decide) (by decide) (by decide)
  have h2 := h.2 r hr 1 rfl
  exact ⟨Or.inl rfl, rfl, rfl, r, hr, h2.2.1, h2.2.2.1, h2.2.2.2⟩

/-- C9 on the example: after one earlier write and a relocation, writing the record returns and the
value slots of `count` and `tags` hold the addresses and lengths the cell builder
reports. -/
theorem C9_value_slots_witness :
    (TILEDB_ARRAY_WRITE = TILEDB_ARRAY_WRITE ∨ TILEDB_ARRAY_WRITE = TILEDB_ARRAY_WRITE_UNSORTED)
    ∧ VariantArrayInfo.replay false example_engine
        (VariantArrayInfo.create 0 TILEDB_ARRAY_WRITE "vars" example_schema (some 1) 32)
        [.write example_cell, .moved] = .ok example_handle_moved
    ∧ value_slot example_schema 0 = 0 ∧ value_slot example_schema 1 = 2
    ∧ ∃ r, example_handle_moved.write_cell false example_engine example_cell = .ok r
        ∧ r.1.m_buffer_pointers[value_slot example_schema 0]? = some (.caller 4096)
        ∧ r.1.m_buffer_sizes[value_slot example_schema 0]? = some 4
        ∧ r.1.m_buffer_pointers[value_slot example_schema 1]? = some (.caller 4100)
        ∧ r.1.m_buffer_sizes[value_slot example_schema 1]? = some 2 := by
  have h := C9_value_slots false example_engine 0 TILEDB_ARRAY_WRITE "vars" example_schema (some 1)
    32 [.write example_cell, .moved] example_handle_moved example_cell (Or.inl rfl) rfl
  obtain ⟨r, hr⟩ := h.1 (by decide) (by decide) (by decide)
  have h0 := h.2.1 r hr 0 (by decide)
  have h1 := h.2.1 r hr 1 (by decide)
  exact ⟨Or.inl rfl, rfl, rfl, rfl, r, hr, h0.1, h0.2, h1.1, h1.2⟩

/-- C10 on the example: after one earlier write and a relocation, staging the record ends with the
cursor on slot `3`, the last of the four slots, and `write_cell` returns. -/
theorem C10_layout_checks_witness :
    (TILEDB_ARRAY_WRITE = TILEDB_ARRAY_WRITE ∨ TILEDB_ARRAY_WRITE = TILEDB_ARRAY_WRITE_UNSORTED)
    ∧ VariantArrayInfo.replay false example_engine
        (VariantArrayInfo.create 0 TILEDB_ARRAY_WRITE "vars" example_schema (some 1) 32)
        [.write example_cell, .moved] = .ok example_handle_moved
    ∧ example_handle_moved.stage_cell false example_cell = .ok (3, example_handle_written)
    ∧ (3 : Nat) = size_t_sub example_handle_written.m_buffers.length 1
    ∧ example_handle_moved.write_cell false example_engine example_cell
        ≠ .error .assertion_failed
    ∧ ∃ r, example_handle_moved.write_cell false example_engine example_cell = .ok r := by
  have h := C10_layout_checks false example_engine 0 TILEDB_ARRAY_WRITE "vars" example_schema (some 1)
    32 [.write example_cell, .moved] example_handle_moved example_cell (Or.inl rfl) rfl
  exact ⟨Or.inl rfl, rfl, rfl, h.2.1 (3, example_handle_written) rfl, h.2.2.1,
    h.2.2.2 (by decide) (by decide) (by decide)⟩

/-- C8 as amended, on the example: writing the record returns and the last slot holds
a copy of the first 16 bytes of the record, with used size 16. -/
theorem C8_coordinates_from_head_witness :
    (TILEDB_ARRAY_WRITE = TILEDB_ARRAY_WRITE ∨ TILEDB_ARRAY_WRITE = TILEDB_ARRAY_WRITE_UNSORTED)
    ∧ VariantArrayInfo.replay false example_engine
        (VariantArrayInfo.create 0 TILEDB_ARRAY_WRITE "vars" example_schema (some 1) 32)
        [] = .ok example_handle
    ∧ ∃ r, example_handle.write_cell false example_engine example_cell = .ok r
        ∧ (∃ b, r.1.m_buffers[r.1.m_buffers.length - 1]? = some b
            ∧ b.take example_schema.dim_size_in_bytes
                = example_cell.bytes.take example_schema.dim_size_in_bytes
            ∧ (example_cell.bytes.take example_schema.dim_size_in_bytes).length
                = example_schema.dim_size_in_bytes)
        ∧ r.1.m_buffer_sizes[r.1.m_buffers.length - 1]?
            = some example_schema.dim_size_in_bytes := by
  have h := C8_coordinates_from_head false example_engine 0 TILEDB_ARRAY_WRITE "vars" example_schema
    (some 1) 32 [] example_handle example_cell (Or.inl rfl) rfl
  obtain ⟨r, hr⟩ := h.1 (by decide) (by decide) (by decide)
  have h2 := h.2 r hr
  exact ⟨Or.inl rfl, rfl, r, hr, h2.2.1, h2.2.2⟩

/-- C4 on the example registry of one open handle: the descriptor `0` is valid and
`close_array(0)` does not raise the invalid-handle exception; the descriptors `-1` and
`1` are not valid and `close_array`, `get_array_schema` and `begin` raise it. -/
theorem C4_invalid_descriptor_witness :
    valid_descriptor example_manager 0
    ∧ (example_manager.close_array 0).result ≠ .error InvalidHandleError
    ∧ ¬ valid_descriptor example_manager (-1)
    ∧ (example_manager.close_array (-1)).result = .error InvalidHandleError
    ∧ (example_manager.get_array_schema example_context (-1) .empty).result
        = .error InvalidHandleError
    ∧ ¬ valid_descriptor example_manager 1
    ∧ (example_manager.begin example_context 1 [] [0]).result = .error InvalidHandleError := by
  have hv0 : valid_descriptor example_manager 0 :=
    ⟨by decide, by decide, example_handle, rfl, by decide⟩
  have hv1 : ¬ valid_descriptor example_manager (-1) := fun h => absurd h.1 (by decide)
  have hv2 : ¬ valid_descriptor example_manager 1 := fun h => absurd h.2.1 (by decide)
  have h0 := C4_invalid_descriptor example_context example_manager 0 .empty [] []
    (by decide) (by decide)
  have h1 := C4_invalid_descriptor example_context example_manager (-1) .empty [] []
    (by decide) (by decide)
  have h2 := C4_invalid_descriptor example_context example_manager 1 .empty [] [0]
    (by decide) (by decide)
  exact ⟨hv0, fun h => (h0.1.mp h) hv0, hv1, h1.1.mpr hv1, h1.2.1.mpr hv1, hv2,
    h2.2.2.1.mpr hv2⟩

/-- C6 as amended, on the example registry of one handle: opening `vars` for writing
with an engine that stores it returns the descriptor `1` and registers a second handle;
with an engine that cannot open it the result is `-1`; the mode `"x"` is refused. -/
theorem C6_open_array_witness :
    example_manager.m_open_arrays_info_vector.length < 2 ^ 31
    ∧ (example_manager.open_array
          { engine := engine_with_vars, util := example_util, default_buffer_size := 32,
            NDEBUG := false }
          "vars" "w").result = .ok 1
    ∧ (example_manager.open_array
          { engine := engine_with_vars, util := example_util, default_buffer_size := 32,
            NDEBUG := false }
          "vars" "w").manager.m_open_arrays_info_vector.length = 2
    ∧ (example_manager.open_array
          { engine := failing_open_engine, util := example_util, default_buffer_size := 32,
            NDEBUG := false }
          "vars" "r").result = .ok (-1)
    ∧ (example_manager.open_array example_context "vars" "x").result
        = .error UnknownModeError := by
  have hs : example_manager.m_open_arrays_info_vector.length < 2 ^ 31 := by decide
  have h1 := C6_open_array
    { engine := engine_with_vars, util := example_util, default_buffer_size := 32,
            NDEBUG := false }
    example_manager "vars" "w" hs
  have h2 := C6_open_array
    { engine := failing_open_engine, util := example_util, default_buffer_size := 32,
            NDEBUG := false }
    example_manager "vars" "r" hs
  have h3 := C6_open_array example_context example_manager "vars" "x" hs
  obtain ⟨hres, hh, hm, _⟩ := ((h1.2 TILEDB_ARRAY_WRITE (Or.inr ⟨rfl, rfl⟩)).2 rfl).2 _ _ rfl
  refine ⟨hs, hres, ?_, ((h2.2 TILEDB_ARRAY_READ (Or.inl ⟨rfl, rfl⟩)).1 (by decide)).1,
    (h3.1 (by decide) (by decide)).1⟩
  rw [hm]; rfl

end GenomicsDB
